import Mathlib

/-!
# The iwasm host driver of Wasmnizer-ts (`runtime-library/main.c`)

A shallow embedding of the driver: native-library registration, the REPL
command splitter, the microtask drain and the staged teardown of `main`.
Calls into the engine, the dynamic linker and the dynamic-value subsystem
are recorded as events; what those calls answer is read from an
environment record, so every theorem holds for every behaviour of the
collaborators.
-/

namespace Iwasm

/-! ## Native libraries (`BH_HAS_DLFCN`) -/

/-- A non-NULL handle returned by `dlopen`. -/
abbrev Handle := Nat

/-- What a call of a library's `get_native_lib` entry point yields: the returned
symbol count, and the two out-parameters (`none` is a NULL pointer). -/
structure NativeLib where
  n_native_symbols : Nat
  module_name : Option String
  native_symbols : Option Nat
deriving DecidableEq, Repr

/-- The answers of the dynamic linker and of the engine's native registry. -/
structure DlEnv where
  /-- The call `dlopen(path, RTLD_NOW | RTLD_GLOBAL)`; `none` is NULL. -/
  dlopen_now : String → Option Handle
  /-- The call `dlopen(path, RTLD_LAZY)`; `none` is NULL. -/
  dlopen_lazy : String → Option Handle
  /-- The call `dlsym(handle, "get_native_lib")`: `none` when the symbol is
  missing, otherwise what calling the entry point yields. -/
  get_native_lib : Handle → Option NativeLib
  /-- The call `wasm_runtime_register_natives(module_name, native_symbols, n)`. -/
  register_natives : String → Nat → Nat → Bool
  /-- The call `wasm_runtime_unregister_natives(module_name, native_symbols)`. -/
  unregister_natives : String → Nat → Bool

/-- The two `dlopen` modes used by the driver. -/
inductive DlMode where
  | now_global
  | lazy
deriving DecidableEq, Repr

/-- Calls made by the two native-library routines, in program order. -/
inductive DlEvent where
  | dlopen (path : String) (mode : DlMode) (result : Option Handle)
  | dlsym (handle : Handle) (found : Bool)
  | get_native_lib (handle : Handle) (result : NativeLib)
  | register_natives (module_name : String) (native_symbols : Nat) (n : Nat) (ok : Bool)
  | unregister_natives (module_name : String) (native_symbols : Nat) (ok : Bool)
  | dlclose (handle : Handle)
  | log_warning
deriving DecidableEq, Repr

/-- The body of the `for` loop of `load_and_register_native_libs` for one
library: the handle stored in `native_handle_list` (if any) and the calls made.
The `&&` chains are evaluated left to right with short circuit. -/
def load_one (env : DlEnv) (path : String) : Option Handle × List DlEvent :=
  -- handle = dlopen(.., RTLD_NOW | RTLD_GLOBAL), else dlopen(.., RTLD_LAZY)
  let first := env.dlopen_now path
  let opened : Option Handle × List DlEvent :=
    match first with
    | some h => (some h, [DlEvent.dlopen path DlMode.now_global (some h)])
    | none =>
      (env.dlopen_lazy path,
        [DlEvent.dlopen path DlMode.now_global none,
         DlEvent.dlopen path DlMode.lazy (env.dlopen_lazy path)])
  match opened with
  | (none, t) => (none, t ++ [DlEvent.log_warning])
  | (some handle, t) =>
    match env.get_native_lib handle with
    | none =>
      (none, t ++ [DlEvent.dlsym handle false, DlEvent.log_warning, DlEvent.dlclose handle])
    | some lib =>
      let t := t ++ [DlEvent.dlsym handle true, DlEvent.get_native_lib handle lib]
      if lib.n_native_symbols > 0 then
        match lib.module_name, lib.native_symbols with
        | some name, some table =>
          let ok := env.register_natives name table lib.n_native_symbols
          let t := t ++ [DlEvent.register_natives name table lib.n_native_symbols ok]
          if ok then (some handle, t)
          else (none, t ++ [DlEvent.log_warning, DlEvent.dlclose handle])
        | _, _ => (none, t ++ [DlEvent.log_warning, DlEvent.dlclose handle])
      else (none, t ++ [DlEvent.log_warning, DlEvent.dlclose handle])

/-- The state of the loop of `load_and_register_native_libs`: the entries
written to `native_handle_list` so far, the running `native_handle_count`, and
the calls made. -/
structure LoadState where
  native_handle_list : List Handle
  native_handle_count : Nat
  trace : List DlEvent
deriving DecidableEq, Repr

/-- The loop `for (i = 0; i < native_lib_count; i++)` of
`load_and_register_native_libs`, from the state `st` over the libraries still
to be processed. A store `native_handle_list[native_handle_count++] = handle`
appends to the list and increments the count. -/
def load_loop (env : DlEnv) : List String → LoadState → LoadState
  | [], st => st
  | path :: rest, st =>
    match load_one env path with
    | (some handle, t) =>
      load_loop env rest
        { native_handle_list := st.native_handle_list ++ [handle],
          native_handle_count := st.native_handle_count + 1,
          trace := st.trace ++ t }
    | (none, t) => load_loop env rest { st with trace := st.trace ++ t }

/-- The function `load_and_register_native_libs(native_lib_list, native_lib_count,
native_handle_list)`: returns `native_handle_count` together with the handles
stored in `native_handle_list`. -/
def load_and_register_native_libs (env : DlEnv) (native_lib_list : List String) : LoadState :=
  load_loop env native_lib_list
    { native_handle_list := [], native_handle_count := 0, trace := [] }

/-- The body of the `for` loop of `unregister_and_unload_native_libs` for one
handle. Every `continue` leaves the handle open. -/
def unload_one (env : DlEnv) (handle : Handle) : List DlEvent :=
  match env.get_native_lib handle with
  | none => [DlEvent.dlsym handle false, DlEvent.log_warning]
  | some lib =>
    let t := [DlEvent.dlsym handle true, DlEvent.get_native_lib handle lib]
    if lib.n_native_symbols = 0 then t ++ [DlEvent.log_warning]
    else
      match lib.module_name, lib.native_symbols with
      | some name, some table =>
        let ok := env.unregister_natives name table
        let t := t ++ [DlEvent.unregister_natives name table ok]
        if ok then t ++ [DlEvent.dlclose handle]
        else t ++ [DlEvent.log_warning]
      | _, _ => t ++ [DlEvent.log_warning]

/-- The function `unregister_and_unload_native_libs(native_lib_count,
native_handle_list)`, on the first `native_lib_count` entries of the array. -/
def unregister_and_unload_native_libs (env : DlEnv) : List Handle → List DlEvent
  | [] => []
  | handle :: rest => unload_one env handle ++ unregister_and_unload_native_libs env rest

/-! ## The REPL command splitter -/

/-- The C string held in a byte buffer: the bytes before the first NUL. -/
def cstr (bytes : List Char) : List Char :=
  bytes.takeWhile (fun c => c != Char.ofNat 0)

/-- One call of `strtok` with the delimiter set `" "` on the text its saved
pointer refers to: leading spaces are skipped; `none` (NULL) when nothing is
left; otherwise the token runs to the next space or the end, and the saved
pointer moves past that space. -/
def strtok (text : List Char) : Option (List Char × List Char) :=
  let s1 := text.dropWhile (fun c => c == ' ')
  if s1.isEmpty then none
  else some (s1.takeWhile (fun c => c != ' '), (s1.dropWhile (fun c => c != ' ')).drop 1)

/-- The `do ... while (p)` loop of `split_string`: `text` is what `strtok` has
still to scan, `res` the array built so far (`idx = res.length`), and
`realloc_ok n` tells whether `realloc` to `n` pointers succeeds. The result
`none` is the `return NULL` of a failed `realloc`; otherwise the array, whose
last entry is the NULL pointer that ended the loop. -/
def split_loop (realloc_ok : Nat → Bool) (text : List Char)
    (res : List (Option (List Char))) : Option (List (Option (List Char))) :=
  match h : strtok text with
  | none => if realloc_ok (res.length + 1) then some (res ++ [none]) else none
  | some (tok, rest) =>
    if realloc_ok (res.length + 1) then split_loop realloc_ok rest (res ++ [some tok])
    else none
termination_by text.length
decreasing_by
  unfold strtok at h
  simp only at h
  split at h
  · exact absurd h (by simp)
  · simp only [Option.some.injEq, Prod.mk.injEq] at h
    obtain ⟨-, rfl⟩ := h
    have h1 : (List.dropWhile (fun c => c == ' ') text).length ≤ text.length :=
      (List.dropWhile_sublist _).length_le
    generalize hs1 : List.dropWhile (fun c => c == ' ') text = s1 at *
    cases s1 with
    | nil => simp at *
    | cons c cs =>
      have hc : (c == ' ') = false := by
        have := List.head_dropWhile_not (fun c => c == ' ') text (by simp [hs1])
        simpa [hs1] using this
      have h3 : (List.dropWhile (fun c => c != ' ') cs).length ≤ cs.length :=
        (List.dropWhile_sublist _).length_le
      have h4 : c ≠ ' ' := by simpa using hc
      simp only [List.length_drop, List.dropWhile_cons, bne_iff_ne, ne_eq, h4,
        not_false_eq_true, decide_True, ite_true]
      simp only [List.length_cons] at h1
      omega

/-- The loop `p = strchr(res[0], 92); while (p) ...` of `split_string`: every
backslash of the first token is overwritten with a space. -/
def unescape : List Char → List Char
  | [] => []
  | c :: cs => (if c = '\\' then ' ' else c) :: unescape cs

/-- What `split_string(str, &count)` does. -/
inductive SplitResult where
  /-- The function returned NULL: a `realloc` failed. -/
  | null
  /-- The array `res` holds only the NULL end marker, so `strchr(res[0], ..)`
  reads through a NULL pointer: undefined behaviour. -/
  | null_deref
  /-- The function returned the array `res` and stored `count`. -/
  | ok (res : List (Option (List Char))) (count : Int)
deriving DecidableEq, Repr

/-- The function `split_string(str, &count)` on the C string `str`. -/
def split_string (realloc_ok : Nat → Bool) (str : List Char) : SplitResult :=
  match split_loop realloc_ok str [] with
  | none => SplitResult.null
  | some res =>
    match res with
    | some tok :: more => SplitResult.ok (some (unescape tok) :: more) ((res.length : Int) - 1)
    | _ => SplitResult.null_deref

/-! ## The REPL -/

/-- Calls and outcomes of `app_instance_repl`, in program order. -/
inductive ReplEvent where
  /-- The prompt was printed and `getline` called; `none` is the result -1. -/
  | getline (line : Option (List Char))
  /-- The message "exit repl mode" was printed. -/
  | exit_repl
  /-- The error "split string failed" was logged. -/
  | split_failed
  /-- The call `wasm_application_execute_func(module_inst, name, argc, argv)`. -/
  | execute_func (name : List Char) (argc : Int) (argv : List (List Char))
  /-- The assertion `bh_assert(n > 0)` failed. -/
  | assert_failed
  /-- The splitter read through a NULL pointer. -/
  | null_deref
deriving DecidableEq, Repr

/-- The command buffer after the newline handling of the loop body, for a line
of more than one byte: a final newline is overwritten with NUL. -/
def strip_newline (cmd : List Char) : List Char :=
  if cmd.getLast? = some '\n' then cmd.dropLast else cmd

/-- The body of the `while` loop of `app_instance_repl` from `strcmp` on, for
the command buffer `cmd`: the events, and whether the loop goes on. -/
def repl_command (realloc_ok : Nat → Bool) (cmd : List Char) : List ReplEvent × Bool :=
  if cstr cmd = "__exit__".toList then ([ReplEvent.exit_repl], false)
  else
    match split_string realloc_ok (cstr cmd) with
    | SplitResult.null => ([ReplEvent.split_failed], false)
    | SplitResult.null_deref => ([ReplEvent.null_deref], false)
    | SplitResult.ok app_argv app_argc =>
      if app_argc ≠ 0 then
        match app_argv with
        | some name :: args =>
          ([ReplEvent.execute_func name (app_argc - 1) (args.filterMap id)], true)
        | _ => ([ReplEvent.null_deref], false)
      else ([], true)

/-- The function `app_instance_repl(module_inst)`, on the lines that successive
`getline` calls return (each with its newline, if it has one) before the
end of input. -/
def app_instance_repl (realloc_ok : Nat → Bool) : List (List Char) → List ReplEvent
  | [] => [ReplEvent.getline none]
  | cmd :: rest =>
    ReplEvent.getline (some cmd) ::
      (if cmd.length = 0 then [ReplEvent.assert_failed]
       else if cmd = ['\n'] then app_instance_repl realloc_ok rest
       else
         match repl_command realloc_ok (strip_newline cmd) with
         | (t, true) => t ++ app_instance_repl realloc_ok rest
         | (t, false) => t)

/-! ## The microtask drain -/

/-- Modelled from the spec: a job of the pending-job queue of the dynamic-value
subsystem ("an ordered sequence of deferred callback jobs", "draining a single
job may itself enqueue further jobs"). The job `mk tag fails enqueues` is
named by `tag`, raises an error when it runs if `fails`, and appends the jobs
`enqueues` to the queue while it runs. -/
inductive Job where
  | mk (tag : Nat) (fails : Bool) (enqueues : List Job) : Job

/-- The name of a job. -/
def Job.tag : Job → Nat
  | Job.mk tag _ _ => tag

mutual
/-- The number of jobs a job stands for: itself and all it will enqueue. -/
def Job.size : Job → Nat
  | Job.mk _ _ enqueues => 1 + queue_size enqueues

/-- The number of jobs a queue stands for. -/
def queue_size : List Job → Nat
  | [] => 0
  | j :: rest => j.size + queue_size rest
end

/-- Modelled from the spec: the external `dyntype_execute_pending_jobs(ctx)`,
declared in `libdyntype_export.h` ("`execute_pending_jobs(ctx) ->
remaining_count|error`", queue with "FIFO semantics"). On an empty queue it
returns 0. Otherwise it removes the job at the head and runs it, which appends
the jobs it enqueues; the result is negative if the job raised an error, and
the number of jobs still queued otherwise. -/
def dyntype_execute_pending_jobs : List Job → Int × List Job
  | [] => (0, [])
  | Job.mk _ fails enqueues :: rest =>
    (if fails then -1 else ((rest ++ enqueues).length : Int), rest ++ enqueues)

/-- Calls made by `execute_micro_tasks`, in program order. -/
inductive TaskEvent where
  /-- The call `dyntype_execute_pending_jobs(ctx)`: the job it ran (if the
  queue was not empty) and its result. -/
  | execute_pending_jobs (job : Option Nat) (err : Int)
  /-- The call `dyntype_dump_error(ctx)`. -/
  | dump_error
  /-- The call `events_poll(exec_env)` and its result. -/
  | events_poll (result : Int)
deriving DecidableEq, Repr

/-- The function `events_poll(exec_env)`: macro tasks are not detected yet, the
result is always -1. -/
def events_poll : Int := -1

/-- The inner `for (;;)` loop of `execute_micro_tasks` on the queue `ctx`: the
calls made and the queue left when the loop breaks. -/
def pending_jobs_loop (ctx : List Job) : List TaskEvent × List Job :=
  match h : dyntype_execute_pending_jobs ctx with
  | (err, ctx1) =>
    let call := TaskEvent.execute_pending_jobs (ctx.head?.map Job.tag) err
    if err ≤ 0 then
      if err < 0 then ([call, TaskEvent.dump_error], ctx1) else ([call], ctx1)
    else
      let r := pending_jobs_loop ctx1
      (call :: r.1, r.2)
termination_by queue_size ctx
decreasing_by
  have happ : ∀ a b : List Job, queue_size (a ++ b) = queue_size a + queue_size b := by
    intro a b
    induction a with
    | nil => simp [queue_size]
    | cons j a ih => simp [queue_size, ih, Nat.add_assoc]
  cases ctx with
  | nil =>
    simp only [dyntype_execute_pending_jobs, Prod.mk.injEq] at h
    omega
  | cons j rest =>
    cases j with
    | mk tag fails enqueues =>
      simp only [dyntype_execute_pending_jobs, Prod.mk.injEq] at h
      obtain ⟨-, rfl⟩ := h
      rw [happ]
      simp only [queue_size, Job.size]
      omega

/-- The function `execute_micro_tasks(exec_env, ctx)` on the queue `ctx`: the
calls made and the queue left when it returns. One pass of the outer
`for (;;)` runs the inner loop and then polls; the loop is left when
`events_poll` answers non-zero, and goes round again otherwise. -/
def execute_micro_tasks (ctx : List Job) : List TaskEvent × List Job :=
  match h : (pending_jobs_loop ctx, events_poll) with
  | (r, poll) =>
    if poll ≠ 0 then (r.1 ++ [TaskEvent.events_poll poll], r.2)
    else
      let r2 := execute_micro_tasks r.2
      (r.1 ++ [TaskEvent.events_poll poll] ++ r2.1, r2.2)
termination_by queue_size ctx
decreasing_by
  rename_i hpoll
  simp only [Prod.mk.injEq] at h
  exact absurd (h.2 ▸ (by decide : events_poll ≠ 0)) hpoll

/-! ## The driver `main` -/

/-- The compile-time switches that select code in `main`. -/
structure Build where
  /-- The switch `BH_HAS_DLFCN`. -/
  has_dlfcn : Bool
  /-- The switch `WASM_ENABLE_AOT`. -/
  enable_aot : Bool
  /-- The switch `WASM_ENABLE_MULTI_MODULE`. -/
  enable_multi_module : Bool
  /-- The switch `WASM_ENABLE_LIBC_WASI`. -/
  enable_libc_wasi : Bool
  /-- The switch `WASM_ENABLE_DEBUG_INTERP`. -/
  enable_debug_interp : Bool
deriving DecidableEq, Repr

/-- The locals of `main` that option processing has set when it ends with a
module file name left in `argv`. -/
structure Config where
  /-- The rest of `argv` from the module file name on (`app_argv`, with
  `app_argc` its length); its head is `wasm_file`. -/
  app_argv : List String
  /-- The name given with `-f` or `--function`; `none` is NULL. -/
  func_name : Option String
  /-- Set by `--repl`. -/
  is_repl_mode : Bool
  /-- The paths given with `--native-lib=`. -/
  native_lib_list : List String
  /-- The address given with `-g=`; `none` is NULL. -/
  ip_addr : Option String
deriving DecidableEq, Repr

/-- The five built-in symbol tables, in the order `main` registers them. -/
inductive Builtin where
  | libdyntype
  | lib_console
  | lib_array
  | lib_timer
  | struct_indirect
deriving DecidableEq, Repr

/-- The two buffers that can hold the module image. -/
inductive Buf where
  /-- The heap buffer returned by `bh_read_file_to_buffer`. -/
  | file
  /-- The executable mapping returned by `os_mmap`. -/
  | mapped
deriving DecidableEq, Repr

/-- What the collaborators of `main` answer during one run. -/
structure Env where
  full_init_ok : Bool
  /-- The linker and registry while the native libraries are loaded. -/
  dl_load : DlEnv
  /-- The linker and registry while the native libraries are unloaded. -/
  dl_unload : DlEnv
  register_ok : Builtin → Bool
  read_file_ok : Bool
  is_xip : Bool
  mmap_ok : Bool
  load_ok : Bool
  instantiate_ok : Bool
  exec_env_ok : Bool
  debug_instance_ok : Bool
  lookup_entry_ok : Bool
  call_entry_ok : Bool
  /-- The lines `getline` returns in REPL mode. -/
  repl_lines : List (List Char)
  realloc_ok : Nat → Bool
  /-- The result of `wasm_runtime_get_exception` after the main or
  named-function call; `none` is NULL. -/
  exception : Option String
  wasi_exit_code : Int
  /-- The pending-job queue when the drain starts. -/
  pending_jobs : List Job

/-- The calls `main` makes, in program order. A `Bool` result is the success of
the call; an `Option Buf` is a pointer, `none` being NULL. -/
inductive Event where
  | wasm_runtime_full_init (ok : Bool)
  | dyntype_context_init
  | dyntype_set_callback_dispatcher
  | load_and_register_native_libs (native_lib_list : List String) (calls : List DlEvent)
      (native_handle_list : List Handle)
  | wasm_runtime_register_natives (table : Builtin) (ok : Bool)
  | bh_read_file_to_buffer (wasm_file : Option String) (ok : Bool)
  | wasm_runtime_is_xip_file (buf : Option Buf) (xip : Bool)
  | os_mmap (ok : Bool)
  | bh_memcpy_s (dst src : Option Buf)
  | wasm_runtime_free (buf : Option Buf)
  | os_munmap (buf : Option Buf)
  | wasm_runtime_set_module_reader
  | wasm_runtime_load (buf : Option Buf) (ok : Bool)
  | wasm_runtime_set_wasi_args
  | wasm_runtime_instantiate (ok : Bool)
  | wasm_runtime_get_exec_env_singleton (ok : Bool)
  | wasm_runtime_start_debug_instance (ok : Bool)
  | wasm_runtime_lookup_function (name : String) (found : Bool)
  | wasm_runtime_call_wasm (exec_env_ok : Bool) (name : String) (argc : Nat) (ok : Bool)
  | app_instance_repl (calls : List ReplEvent)
  | wasm_application_execute_func (name : String) (argc : Int) (argv : List String)
  | wasm_application_execute_main (argc : Int) (argv : List String)
  | wasm_runtime_get_wasi_exit_code (code : Int)
  | execute_micro_tasks (exec_env_ok : Bool) (calls : List TaskEvent)
  | wasm_runtime_deinstantiate
  | wasm_runtime_unload
  | unregister_and_unload_native_libs (native_handle_list : List Handle)
      (calls : List DlEvent)
  | dyntype_context_destroy
  | wasm_runtime_destroy
deriving DecidableEq, Repr

/-- The locals of `main` that the code after the `fail` labels reads. -/
structure Locals where
  ret : Int
  is_xip_file : Bool
  wasm_file_buf : Option Buf
  native_handle_list : List Handle
deriving DecidableEq, Repr

/-- Where control goes when the straight-line part of `main` ends: a `return`
before any label, or one of the labels (normal completion falls into
`fail4`). -/
inductive Label where
  | return_now
  | fail1
  | fail2
  | fail3
  | fail4
deriving DecidableEq, Repr

/-- The code from the label `fail1` to the `return`. -/
def at_fail1 (b : Build) (env : Env) (s : Locals) : List Event :=
  (if b.has_dlfcn then
    [Event.unregister_and_unload_native_libs s.native_handle_list
      (unregister_and_unload_native_libs env.dl_unload s.native_handle_list)]
   else []) ++
  [Event.dyntype_context_destroy, Event.wasm_runtime_destroy]

/-- The code from the label `fail2` on. -/
def at_fail2 (b : Build) (env : Env) (s : Locals) : List Event :=
  (if !s.is_xip_file then [Event.wasm_runtime_free s.wasm_file_buf]
   else if b.enable_aot then [Event.os_munmap s.wasm_file_buf]
   else []) ++
  at_fail1 b env s

/-- The code from the label `fail3` on. -/
def at_fail3 (b : Build) (env : Env) (s : Locals) : List Event :=
  Event.wasm_runtime_unload :: at_fail2 b env s

/-- The code from the label `fail4` on. -/
def at_fail4 (b : Build) (env : Env) (s : Locals) : List Event :=
  Event.wasm_runtime_deinstantiate :: at_fail3 b env s

/-- The code executed from a label to the `return` of `main`. -/
def cleanup (b : Build) (env : Env) (s : Locals) : Label → List Event
  | Label.return_now => []
  | Label.fail1 => at_fail1 b env s
  | Label.fail2 => at_fail2 b env s
  | Label.fail3 => at_fail3 b env s
  | Label.fail4 => at_fail4 b env s

/-- The registration of the built-in symbol tables still to be registered:
the calls made, and whether all succeeded (the first failure jumps to
`fail1`). -/
def register_builtins (env : Env) : List Builtin → List Event × Bool
  | [] => ([], true)
  | table :: rest =>
    if env.register_ok table then
      let r := register_builtins env rest
      (Event.wasm_runtime_register_natives table true :: r.1, r.2)
    else ([Event.wasm_runtime_register_natives table false], false)

/-- The built-in tables in registration order. -/
def builtins : List Builtin :=
  [Builtin.libdyntype, Builtin.lib_console, Builtin.lib_array, Builtin.lib_timer,
   Builtin.struct_indirect]

/-- The part of `main` from the `_entry` lookup to the jump to `fail4`, entered
with `ret = 0`. -/
def main_run (b : Build) (cfg : Config) (env : Env) (s : Locals) :
    Label × Locals × List Event :=
  let s := { s with ret := 0 }
  if !env.lookup_entry_ok then
    (Label.fail4, s, [Event.wasm_runtime_lookup_function "_entry" false])
  else if !env.call_entry_ok then
    (Label.fail4, s,
      [Event.wasm_runtime_lookup_function "_entry" true,
       Event.wasm_runtime_call_wasm env.exec_env_ok "_entry" 0 false])
  else
    let t := [Event.wasm_runtime_lookup_function "_entry" true,
              Event.wasm_runtime_call_wasm env.exec_env_ok "_entry" 0 true]
    -- the run mode; `exception` stays NULL in REPL mode
    let mode : Option String × List Event :=
      if cfg.is_repl_mode then
        (none, [Event.app_instance_repl (app_instance_repl env.realloc_ok env.repl_lines)])
      else
        match cfg.func_name with
        | some func_name =>
          (env.exception,
            [Event.wasm_application_execute_func func_name
              ((cfg.app_argv.length : Int) - 1) (cfg.app_argv.drop 1)])
        | none =>
          (env.exception,
            [Event.wasm_application_execute_main (cfg.app_argv.length : Int) cfg.app_argv])
    let s := if mode.1.isSome then { s with ret := 1 } else s
    let wasi : Locals × List Event :=
      if b.enable_libc_wasi && s.ret == 0 then
        ({ s with ret := env.wasi_exit_code },
          [Event.wasm_runtime_get_wasi_exit_code env.wasi_exit_code])
      else (s, [])
    (Label.fail4, wasi.1,
      t ++ mode.2 ++ wasi.2 ++
        [Event.execute_micro_tasks env.exec_env_ok (execute_micro_tasks env.pending_jobs).1])

/-- The part of `main` from `wasm_runtime_load` to the `_entry` lookup. -/
def main_load (b : Build) (cfg : Config) (env : Env) (s : Locals) :
    Label × Locals × List Event :=
  let t0 := if b.enable_multi_module then [Event.wasm_runtime_set_module_reader] else []
  if !env.load_ok then
    (Label.fail2, s, t0 ++ [Event.wasm_runtime_load s.wasm_file_buf false])
  else
    let t1 := t0 ++ [Event.wasm_runtime_load s.wasm_file_buf true] ++
      (if b.enable_libc_wasi then [Event.wasm_runtime_set_wasi_args] else [])
    if !env.instantiate_ok then
      (Label.fail3, s, t1 ++ [Event.wasm_runtime_instantiate false])
    else
      let t2 := t1 ++ [Event.wasm_runtime_instantiate true,
        Event.wasm_runtime_get_exec_env_singleton env.exec_env_ok]
      if b.enable_debug_interp && cfg.ip_addr.isSome && !env.debug_instance_ok then
        (Label.fail4, s, t2 ++ [Event.wasm_runtime_start_debug_instance false])
      else
        let t3 := t2 ++
          (if b.enable_debug_interp && cfg.ip_addr.isSome then
            [Event.wasm_runtime_start_debug_instance true] else [])
        let r := main_run b cfg env s
        (r.1, r.2.1, t3 ++ r.2.2)

/-- The part of `main` from `bh_read_file_to_buffer` to `wasm_runtime_load`. -/
def main_read (b : Build) (cfg : Config) (env : Env) (s : Locals) :
    Label × Locals × List Event :=
  if !env.read_file_ok then
    (Label.fail1, s, [Event.bh_read_file_to_buffer cfg.app_argv.head? false])
  else
    let s := { s with wasm_file_buf := some Buf.file }
    let t := [Event.bh_read_file_to_buffer cfg.app_argv.head? true]
    if b.enable_aot then
      let t := t ++ [Event.wasm_runtime_is_xip_file s.wasm_file_buf env.is_xip]
      if env.is_xip then
        if !env.mmap_ok then
          (Label.fail1, s, t ++ [Event.os_mmap false, Event.wasm_runtime_free s.wasm_file_buf])
        else
          let t := t ++ [Event.os_mmap true, Event.bh_memcpy_s (some Buf.mapped) s.wasm_file_buf,
            Event.wasm_runtime_free s.wasm_file_buf]
          let s := { s with wasm_file_buf := some Buf.mapped, is_xip_file := true }
          let r := main_load b cfg env s
          (r.1, r.2.1, t ++ r.2.2)
      else
        let r := main_load b cfg env s
        (r.1, r.2.1, t ++ r.2.2)
    else
      let r := main_load b cfg env s
      (r.1, r.2.1, t ++ r.2.2)

/-- The straight-line part of `main`, from `wasm_runtime_full_init` to the
first `return` or jump to a label: the label, the locals at that point and the
calls made so far. -/
def main_body (b : Build) (cfg : Config) (env : Env) : Label × Locals × List Event :=
  let s : Locals :=
    { ret := -1, is_xip_file := false, wasm_file_buf := none, native_handle_list := [] }
  if !env.full_init_ok then (Label.return_now, s, [Event.wasm_runtime_full_init false])
  else
    let t := [Event.wasm_runtime_full_init true, Event.dyntype_context_init,
      Event.dyntype_set_callback_dispatcher]
    let loaded := load_and_register_native_libs env.dl_load cfg.native_lib_list
    let s := if b.has_dlfcn then { s with native_handle_list := loaded.native_handle_list } else s
    let t := t ++
      (if b.has_dlfcn then
        [Event.load_and_register_native_libs cfg.native_lib_list loaded.trace
          loaded.native_handle_list] else [])
    let reg := register_builtins env builtins
    if !reg.2 then (Label.fail1, s, t ++ reg.1)
    else
      let r := main_read b cfg env s
      (r.1, r.2.1, t ++ reg.1 ++ r.2.2)

/-- The function `main` after option processing: the returned status and all
calls made, those of the straight-line part followed by those of the code
after the label reached. -/
def main (b : Build) (cfg : Config) (env : Env) : Int × List Event :=
  let r := main_body b cfg env
  (r.2.1.ret, r.2.2 ++ cleanup b env r.2.1 r.1)

/-! ## Resources, for the statements about teardown -/

/-- The resource classes that `main` acquires and releases. -/
inductive Resource where
  /-- The engine-global state set up by `wasm_runtime_full_init`. -/
  | engine
  /-- The dynamic-value context. -/
  | dyn_ctx
  /-- The native-library handles kept in `native_handle_list`. -/
  | native_libs
  /-- The module image held in the given buffer. -/
  | image (buf : Option Buf)
  /-- The loaded module. -/
  | wasm_module
  /-- The module instance. -/
  | module_inst
deriving DecidableEq, Repr

/-- The resource a call acquires, if any (a failed call acquires nothing). -/
def acquires : Event → Option Resource
  | Event.wasm_runtime_full_init true => some Resource.engine
  | Event.dyntype_context_init => some Resource.dyn_ctx
  | Event.load_and_register_native_libs _ _ _ => some Resource.native_libs
  | Event.bh_read_file_to_buffer _ true => some (Resource.image (some Buf.file))
  | Event.os_mmap true => some (Resource.image (some Buf.mapped))
  | Event.wasm_runtime_load _ true => some Resource.wasm_module
  | Event.wasm_runtime_instantiate true => some Resource.module_inst
  | _ => none

/-- The resource a call releases, if any. -/
def releases : Event → Option Resource
  | Event.wasm_runtime_deinstantiate => some Resource.module_inst
  | Event.wasm_runtime_unload => some Resource.wasm_module
  | Event.wasm_runtime_free buf => some (Resource.image buf)
  | Event.os_munmap buf => some (Resource.image buf)
  | Event.unregister_and_unload_native_libs _ _ => some Resource.native_libs
  | Event.dyntype_context_destroy => some Resource.dyn_ctx
  | Event.wasm_runtime_destroy => some Resource.engine
  | _ => none

/-- The effect of one call on the stack of held resources (latest first). -/
def held_step (stack : List Resource) (e : Event) : List Resource :=
  match acquires e with
  | some r => r :: stack
  | none =>
    match releases e with
    | some r => stack.erase r
    | none => stack

/-- The resources held after the calls `t` when `stack` was held before them. -/
def held_from (stack : List Resource) (t : List Event) : List Resource :=
  t.foldl held_step stack

/-- The resources held after a sequence of calls, the latest acquired first. -/
def held (t : List Event) : List Resource :=
  held_from [] t

/-- The place of a resource class in the teardown order of the driver:
instance, module, image, native libraries, dynamic-value context, engine. -/
def teardown_rank : Resource → Nat
  | Resource.module_inst => 0
  | Resource.wasm_module => 1
  | Resource.image _ => 2
  | Resource.native_libs => 3
  | Resource.dyn_ctx => 4
  | Resource.engine => 5

/-- Whether a call releases an image buffer, by heap-free or by unmap. -/
def is_image_release : Event → Bool
  | Event.wasm_runtime_free _ => true
  | Event.os_munmap _ => true
  | _ => false

/-- The image-releasing calls among `t`, in order. -/
def image_releases (t : List Event) : List Event :=
  t.filter is_image_release

/-! ## Native libraries: what the statements speak about -/

/-- The handles closed by `dlclose` in a sequence of calls, in order. -/
def closed_handles (t : List DlEvent) : List Handle :=
  t.filterMap (fun e => match e with
    | DlEvent.dlclose h => some h
    | _ => none)

/-- The handles looked up by `dlsym` in a sequence of calls, in order. -/
def looked_up_handles (t : List DlEvent) : List Handle :=
  t.filterMap (fun e => match e with
    | DlEvent.dlsym h _ => some h
    | _ => none)

/-- The symbol tables (namespace and table) passed to
`wasm_runtime_unregister_natives` in a sequence of calls, in order. -/
def unregistered_tables (t : List DlEvent) : List (String × Nat) :=
  t.filterMap (fun e => match e with
    | DlEvent.unregister_natives name table _ => some (name, table)
    | _ => none)

/-- The `dlopen` calls (path and mode) in a sequence of calls, in order. -/
def dlopen_calls (t : List DlEvent) : List (String × DlMode) :=
  t.filterMap (fun e => match e with
    | DlEvent.dlopen path mode _ => some (path, mode)
    | _ => none)

/-- The symbol table that can still be recomputed for a handle: the lookup of
`get_native_lib` succeeds and it yields a non-zero count, a non-null namespace
and a non-null table. -/
def recomputed_table (env : DlEnv) (handle : Handle) : Option (String × Nat) :=
  match env.get_native_lib handle with
  | some lib =>
    if lib.n_native_symbols = 0 then none
    else
      match lib.module_name, lib.native_symbols with
      | some name, some table => some (name, table)
      | _, _ => none
  | none => none

/-- Lookup, recomputation and unregistration all succeed for a handle. -/
def unload_succeeds (env : DlEnv) (handle : Handle) : Bool :=
  match recomputed_table env handle with
  | some (name, table) => env.unregister_natives name table
  | none => false

/-- The handle a library path opens: resolve-now/global mode first, lazy mode
if that fails. -/
def opened_handle (env : DlEnv) (path : String) : Option Handle :=
  match env.dlopen_now path with
  | some h => some h
  | none => env.dlopen_lazy path

/-- The steps after opening all succeed for a handle: the entry point is found,
it yields a positive count with non-null namespace and table, and their
registration succeeds. -/
def registers (env : DlEnv) (handle : Handle) : Bool :=
  match env.get_native_lib handle with
  | some lib =>
    match lib.module_name, lib.native_symbols with
    | some name, some table =>
      decide (lib.n_native_symbols > 0) && env.register_natives name table lib.n_native_symbols
    | _, _ => false
  | none => false

/-- The handle of a library that is opened and registered. -/
def accepted_handle (env : DlEnv) (path : String) : Option Handle :=
  (opened_handle env path).filter (fun h => registers env h)

/-- The handle of a library that is opened but fails a later step. -/
def rejected_handle (env : DlEnv) (path : String) : Option Handle :=
  (opened_handle env path).filter (fun h => !registers env h)

/-- The `dlopen` calls a library path is entitled to: one in resolve-now/global
mode, and one in lazy mode only if the first failed. -/
def expected_dlopen_calls (env : DlEnv) (path : String) : List (String × DlMode) :=
  if (env.dlopen_now path).isSome then [(path, DlMode.now_global)]
  else [(path, DlMode.now_global), (path, DlMode.lazy)]

/-- A call of `dyntype_execute_pending_jobs` that ran a job without error and
reported more jobs to run: the inner loop goes on after it. -/
def is_progress : TaskEvent → Bool
  | TaskEvent.execute_pending_jobs (some _) err => decide (0 < err)
  | _ => false

/-- A call of `dyntype_execute_pending_jobs` that reported an error. -/
def is_failed_call : TaskEvent → Bool
  | TaskEvent.execute_pending_jobs _ err => decide (err < 0)
  | _ => false

/-! ## Command lines: what the statements speak about -/

/-- The tokens of a text: its maximal runs of characters other than the space,
from left to right (the pieces between spaces, the empty ones left out). -/
def tokens (text : List Char) : List (List Char) :=
  (text.splitOnP (fun c => c == ' ')).filter (fun w => !w.isEmpty)

/-- The line is exactly `__exit__`, with or without the final newline. -/
def is_exit_line (line : List Char) : Bool :=
  line == "__exit__".toList || line == "__exit__\n".toList

/-- The call a line is dispatched as: its first token, with backslashes
replaced by spaces, applied to the remaining tokens; no call for a line
without a token. -/
def dispatched (line : List Char) : List ReplEvent :=
  match tokens (strip_newline line) with
  | name :: args => [ReplEvent.execute_func (unescape name) (args.length : Int) args]
  | [] => []

/-- A line of text that neither ends the loop nor is without effect by
accident: it is not empty, holds no NUL byte, is not `__exit__`, and is either
a lone newline or has at least one token. -/
def ordinary_line (line : List Char) : Bool :=
  !line.isEmpty && !line.contains (Char.ofNat 0) && !is_exit_line line
    && (line == ['\n'] || !(tokens (strip_newline line)).isEmpty)

/-! ## Guest calls of `main`: what the statements speak about -/

/-- Whether a call of `main` invokes guest code directly: the `_entry` call or
one of the three run modes. -/
def is_guest_call : Event → Bool
  | Event.wasm_runtime_call_wasm _ _ _ _ => true
  | Event.app_instance_repl _ => true
  | Event.wasm_application_execute_func _ _ _ => true
  | Event.wasm_application_execute_main _ _ => true
  | _ => false

/-- The guest calls among `t`, in order. -/
def guest_calls (t : List Event) : List Event :=
  t.filter is_guest_call

/-- Whether a call is the microtask drain. -/
def is_drain : Event → Bool
  | Event.execute_micro_tasks _ _ => true
  | _ => false

/-- The run mode the configuration selects: REPL if `--repl` was given,
otherwise the named function if `-f` was given, otherwise the main entry. -/
def selected_run_mode (cfg : Config) (env : Env) : Event :=
  if cfg.is_repl_mode then
    Event.app_instance_repl (app_instance_repl env.realloc_ok env.repl_lines)
  else
    match cfg.func_name with
    | some func_name =>
      Event.wasm_application_execute_func func_name ((cfg.app_argv.length : Int) - 1)
        (cfg.app_argv.drop 1)
    | none => Event.wasm_application_execute_main (cfg.app_argv.length : Int) cfg.app_argv

/-- The stages before the `_entry` lookup all succeed: engine, built-in tables,
image read, mapping of an execute-in-place image, load, instantiation, and the
debug instance when one is asked for. -/
def reaches_entry (b : Build) (cfg : Config) (env : Env) : Bool :=
  env.full_init_ok && (register_builtins env builtins).2 && env.read_file_ok
    && !(b.enable_aot && env.is_xip && !env.mmap_ok)
    && env.load_ok && env.instantiate_ok
    && !(b.enable_debug_interp && cfg.ip_addr.isSome && !env.debug_instance_ok)

/-- Whether a call is one of the three run modes: the REPL, the named function
or the main entry. -/
def is_run_mode : Event → Bool
  | Event.app_instance_repl _ => true
  | Event.wasm_application_execute_func _ _ _ => true
  | Event.wasm_application_execute_main _ _ => true
  | _ => false

/-! ## The option `--gc-heap-size=` (`WASM_ENABLE_GC`) -/

/-- The byte `s[i]` of the C string `s`: a character of the string, the
terminating NUL at index `s.length`, and `none` for an index beyond the
terminator, which lies outside the string. -/
def c_char_at (s : List Char) (i : Nat) : Option Char :=
  if i < s.length then s.get? i
  else if i = s.length then some (Char.ofNat 0)
  else none

/-- The digits read by `atoi`, accumulated in `acc`: reading stops at the first
character that is not a digit. -/
def atoi_digits : List Char → Nat → Nat
  | [], acc => acc
  | c :: cs, acc => if c.isDigit then atoi_digits cs (acc * 10 + (c.toNat - '0'.toNat)) else acc

/-- The library function `atoi`: white space is skipped, a sign is read, then
the digits (values in the range of `int`). -/
def atoi (s : List Char) : Int :=
  match s.dropWhile (fun c => c.isWhitespace) with
  | '-' :: cs => -(atoi_digits cs 0 : Int)
  | '+' :: cs => (atoi_digits cs 0 : Int)
  | cs => (atoi_digits cs 0 : Int)

/-- What the branch of option processing for `--gc-heap-size=` does with an
argument. -/
inductive OptionOutcome where
  /-- The argument does not start with `--gc-heap-size=`: another branch. -/
  | no_match
  /-- The emptiness check reads a byte beyond the terminating NUL of the
  argument: undefined behaviour. -/
  | out_of_bounds
  /-- The branch executes `return print_help()`. -/
  | print_help
  /-- The branch assigns `gc_heap_size`. -/
  | gc_heap_size (n : Nat)
deriving DecidableEq, Repr

/-- The branch `else if (!strncmp(argv[0], "--gc-heap-size=", 15))` of option
processing, on the argument `arg`: the check reads `argv[0][21]`, the value is
`atoi(argv[0] + 15)` stored in a `uint32_t`. No earlier branch matches an
argument with this prefix. -/
def gc_heap_size_option (arg : List Char) : OptionOutcome :=
  if arg.take 15 == "--gc-heap-size=".toList then
    match c_char_at arg 21 with
    | none => OptionOutcome.out_of_bounds
    | some c =>
      if c = Char.ofNat 0 then OptionOutcome.print_help
      else OptionOutcome.gc_heap_size ((atoi (arg.drop 15) % 2 ^ 32).toNat)
  else OptionOutcome.no_match

/-! ## Sample inputs -/

/-- A build with every switch on. -/
def full_build : Build :=
  { has_dlfcn := true, enable_aot := true, enable_multi_module := true,
    enable_libc_wasi := true, enable_debug_interp := true }

/-- The command line `iwasm -f F a.wasm x y`. -/
def demo_config : Config :=
  { app_argv := ["a.wasm", "x", "y"], func_name := some "F", is_repl_mode := false,
    native_lib_list := [], ip_addr := none }

/-- A linker that opens nothing and a registry that accepts everything. -/
def quiet_dl : DlEnv :=
  { dlopen_now := fun _ => none, dlopen_lazy := fun _ => none,
    get_native_lib := fun _ => none, register_natives := fun _ _ _ => true,
    unregister_natives := fun _ _ => true }

/-- A run in which every call succeeds, on a heap-owned image. -/
def good_env : Env :=
  { full_init_ok := true, dl_load := quiet_dl, dl_unload := quiet_dl,
    register_ok := fun _ => true, read_file_ok := true, is_xip := false, mmap_ok := true,
    load_ok := true, instantiate_ok := true, exec_env_ok := true, debug_instance_ok := true,
    lookup_entry_ok := true, call_entry_ok := true, repl_lines := [],
    realloc_ok := fun _ => true, exception := none, wasi_exit_code := 0, pending_jobs := [] }

/-- A run on an execute-in-place image whose load fails. -/
def xip_env : Env :=
  { good_env with is_xip := true, load_ok := false }

/-- A linker that opens `a.so` as handle 7 at once and `b.so` as handle 9 in
lazy mode only; handle 7 exports a table of two symbols, handle 9 lacks the
entry point. -/
def demo_dl : DlEnv :=
  { dlopen_now := fun p => if p = "a.so" then some 7 else none,
    dlopen_lazy := fun p => if p = "b.so" then some 9 else none,
    get_native_lib := fun h =>
      if h = 7 then some (NativeLib.mk 2 (some "env") (some 100)) else none,
    register_natives := fun _ _ _ => true,
    unregister_natives := fun _ _ => true }

/-- A run on a module that loads and instantiates but exports no `_entry`. -/
def no_entry_env : Env :=
  { good_env with lookup_entry_ok := false }

/-- A run on a module whose `_entry` call traps. -/
def trap_env : Env :=
  { good_env with call_entry_ok := false }

/-- A run in which instantiation succeeds but no execution context is
obtained. -/
def no_exec_env : Env :=
  { good_env with exec_env_ok := false }

/-- A run on a module file that is absent or unreadable. -/
def missing_file_env : Env :=
  { good_env with read_file_ok := false }

/-! # Theorems -/

/-! ## Teardown of `main` -/

/-- Holding is computed call by call, so it splits over concatenation. -/
theorem held_from_append (st : List Resource) (t1 t2 : List Event) :
    held_from st (t1 ++ t2) = held_from (held_from st t1) t2 := by
  simp [held_from, List.foldl_append]

/-- No call, no change. -/
theorem held_from_nil (st : List Resource) : held_from st [] = st := rfl

/-- One call changes the stack by `held_step`. -/
theorem held_from_cons (st : List Resource) (e : Event) (t : List Event) :
    held_from st (e :: t) = held_from (held_step st e) t := rfl

/-- Registering the built-in tables neither acquires nor releases a resource. -/
theorem register_builtins_neutral (env : Env) (l : List Builtin) (st : List Resource) :
    held_from st (register_builtins env l).1 = st
      ∧ (register_builtins env l).1.filterMap releases = [] := by
  induction l with
  | nil => simp [register_builtins, held_from]
  | cons a l ih =>
    simp only [register_builtins]
    split_ifs
    · simp [held_from_cons, held_step, acquires, releases, ih]
    · simp [held_from_cons, held_from_nil, held_step, acquires, releases]

/-- The run stage always ends at `fail4`, keeps the locals that teardown reads,
and neither acquires nor releases a resource. -/
theorem main_run_summary (b : Build) (cfg : Config) (env : Env) (s : Locals)
    (st : List Resource) :
    (main_run b cfg env s).1 = Label.fail4
      ∧ (main_run b cfg env s).2.1.is_xip_file = s.is_xip_file
      ∧ (main_run b cfg env s).2.1.wasm_file_buf = s.wasm_file_buf
      ∧ (main_run b cfg env s).2.1.native_handle_list = s.native_handle_list
      ∧ held_from st (main_run b cfg env s).2.2 = st
      ∧ (main_run b cfg env s).2.2.filterMap releases = [] := by
  simp only [main_run]
  split_ifs <;> (try split) <;> simp [held_from, held_step, acquires, releases]

/-- The label, locals and resources with which the load stage ends. -/
theorem main_load_summary (b : Build) (cfg : Config) (env : Env) (s : Locals)
    (st : List Resource) :
    (main_load b cfg env s).1
        = (if !env.load_ok then Label.fail2 else if !env.instantiate_ok then Label.fail3
            else Label.fail4)
      ∧ (main_load b cfg env s).2.1.is_xip_file = s.is_xip_file
      ∧ (main_load b cfg env s).2.1.wasm_file_buf = s.wasm_file_buf
      ∧ (main_load b cfg env s).2.1.native_handle_list = s.native_handle_list
      ∧ held_from st (main_load b cfg env s).2.2
        = (if !env.load_ok then st else if !env.instantiate_ok then Resource.wasm_module :: st
            else Resource.module_inst :: Resource.wasm_module :: st)
      ∧ (main_load b cfg env s).2.2.filterMap releases = [] := by
  obtain ⟨h1, h2, h3, h4, -, h6⟩ := main_run_summary b cfg env s []
  have h5 := fun st => (main_run_summary b cfg env s st).2.2.2.2.1
  simp only [main_load]
  split_ifs <;>
    simp [held_from_append, held_from_cons, held_from_nil, held_step, acquires, releases,
      h1, h2, h3, h4, h5, h6, List.filterMap_append]

/-- The label, locals and resources with which the read stage ends. -/
theorem main_read_summary (b : Build) (cfg : Config) (env : Env) (s : Locals)
    (st : List Resource) :
    (main_read b cfg env s).1
        = (if !env.read_file_ok then Label.fail1
            else if b.enable_aot && env.is_xip && !env.mmap_ok then Label.fail1
            else if !env.load_ok then Label.fail2
            else if !env.instantiate_ok then Label.fail3 else Label.fail4)
      ∧ (main_read b cfg env s).2.1.is_xip_file
        = (if env.read_file_ok && b.enable_aot && env.is_xip && env.mmap_ok then true
            else s.is_xip_file)
      ∧ (main_read b cfg env s).2.1.wasm_file_buf
        = (if !env.read_file_ok then s.wasm_file_buf
            else if b.enable_aot && env.is_xip && env.mmap_ok then some Buf.mapped
            else some Buf.file)
      ∧ (main_read b cfg env s).2.1.native_handle_list = s.native_handle_list
      ∧ held_from st (main_read b cfg env s).2.2
        = (if !env.read_file_ok then st
            else if b.enable_aot && env.is_xip && !env.mmap_ok then st
            else
              (if !env.load_ok then []
                else if !env.instantiate_ok then [Resource.wasm_module]
                else [Resource.module_inst, Resource.wasm_module]) ++
              Resource.image (main_read b cfg env s).2.1.wasm_file_buf :: st)
      ∧ (main_read b cfg env s).2.2.filterMap releases
        = (if env.read_file_ok && b.enable_aot && env.is_xip
            then [Resource.image (some Buf.file)] else []) := by
  have h1 := fun s => (main_load_summary b cfg env s []).1
  have h2 := fun s => (main_load_summary b cfg env s []).2.1
  have h3 := fun s => (main_load_summary b cfg env s []).2.2.1
  have h4 := fun s => (main_load_summary b cfg env s []).2.2.2.1
  have h5 := fun s st => (main_load_summary b cfg env s st).2.2.2.2.1
  have h6 := fun s => (main_load_summary b cfg env s []).2.2.2.2.2
  simp only [main_read]
  cases hr : env.read_file_ok <;> cases ha : b.enable_aot <;> cases hx : env.is_xip <;>
    cases hm : env.mmap_ok <;> cases hl : env.load_ok <;> cases hi : env.instantiate_ok <;>
    simp [held_from_append, held_from_cons, held_from_nil, held_step, acquires, releases,
      h1, h2, h3, h4, h5, h6, hl, hi, List.filterMap_append]

/-- The label, locals and resources with which the straight-line part of `main`
ends. -/
theorem main_body_summary (b : Build) (cfg : Config) (env : Env) :
    (main_body b cfg env).1
        = (if !env.full_init_ok then Label.return_now
            else if !(register_builtins env builtins).2 then Label.fail1
            else if !env.read_file_ok then Label.fail1
            else if b.enable_aot && env.is_xip && !env.mmap_ok then Label.fail1
            else if !env.load_ok then Label.fail2
            else if !env.instantiate_ok then Label.fail3 else Label.fail4)
      ∧ (main_body b cfg env).2.1.is_xip_file
        = (env.full_init_ok && (register_builtins env builtins).2 && env.read_file_ok
            && b.enable_aot && env.is_xip && env.mmap_ok)
      ∧ (main_body b cfg env).2.1.wasm_file_buf
        = (if !(env.full_init_ok && (register_builtins env builtins).2 && env.read_file_ok)
            then none
            else if b.enable_aot && env.is_xip && env.mmap_ok then some Buf.mapped
            else some Buf.file)
      ∧ held (main_body b cfg env).2.2
        = (if !env.full_init_ok then []
            else
              (if !(register_builtins env builtins).2 then []
                else if !env.read_file_ok then []
                else if b.enable_aot && env.is_xip && !env.mmap_ok then []
                else
                  (if !env.load_ok then []
                    else if !env.instantiate_ok then [Resource.wasm_module]
                    else [Resource.module_inst, Resource.wasm_module]) ++
                  [Resource.image (main_body b cfg env).2.1.wasm_file_buf]) ++
              (if b.has_dlfcn then [Resource.native_libs] else []) ++
              [Resource.dyn_ctx, Resource.engine])
      ∧ (main_body b cfg env).2.2.filterMap releases
        = (if env.full_init_ok && (register_builtins env builtins).2 && env.read_file_ok
              && b.enable_aot && env.is_xip
            then [Resource.image (some Buf.file)] else []) := by
  have h1 := fun s => (main_read_summary b cfg env s []).1
  have h2 := fun s => (main_read_summary b cfg env s []).2.1
  have h3 := fun s => (main_read_summary b cfg env s []).2.2.1
  have h5 := fun s st => (main_read_summary b cfg env s st).2.2.2.2.1
  have h6 := fun s => (main_read_summary b cfg env s []).2.2.2.2.2
  have g1 := fun st => (register_builtins_neutral env builtins st).1
  have g2 := (register_builtins_neutral env builtins []).2
  simp only [main_body, held]
  cases hf : env.full_init_ok
  · simp [held_from_nil, held_from_cons, held_step, acquires, releases]
  · cases hg : (register_builtins env builtins).2 <;> cases hd : b.has_dlfcn <;>
      cases hr : env.read_file_ok <;>
      simp [held_from_append, held_from_cons, held_from_nil, held_step, acquires, releases,
        h1, h2, h3, h5, h6, g1, g2, hr, List.filterMap_append] <;>
      split_ifs <;> simp

set_option maxHeartbeats 800000 in
/-- Claim C1: at whatever stage `main` leaves its straight-line part (a failed
stage or normal completion), the code after the label reached consists of
release calls only, and they release exactly the resources held at that
point, latest acquired first; no resource is released twice in the whole run,
nothing is held when `main` returns, and the order is instance, module, image,
native libraries, dynamic-value context, engine. -/
theorem main_teardown_reverse_acquisition (b : Build) (cfg : Config) (env : Env) :
    (cleanup b env (main_body b cfg env).2.1 (main_body b cfg env).1).map releases
        = (held (main_body b cfg env).2.2).map some
      ∧ ((main b cfg env).2.filterMap releases).Nodup
      ∧ held (main b cfg env).2 = []
      ∧ ((held (main_body b cfg env).2.2).map teardown_rank).Pairwise (fun x y => x < y) := by
  obtain ⟨h1, h2, h3, h4, h5⟩ := main_body_summary b cfg env
  have happ : ∀ t1 t2, held (t1 ++ t2) = held_from (held t1) t2 := fun t1 t2 =>
    held_from_append [] t1 t2
  simp only [main, happ, List.filterMap_append, h4, h5, h1, h2, h3]
  cases hf : env.full_init_ok
  · simp [held_from_nil, cleanup]
  cases hg : (register_builtins env builtins).2
  · cases hd : b.has_dlfcn <;>
      simp [held_from_cons, held_from_nil, held_step, acquires, releases, teardown_rank,
        cleanup, at_fail1, hd]
  cases hr : env.read_file_ok
  · cases hd : b.has_dlfcn <;>
      simp [held_from_cons, held_from_nil, held_step, acquires, releases, teardown_rank,
        cleanup, at_fail1, hd]
  cases hd : b.has_dlfcn <;> cases ha : b.enable_aot <;> cases hx : env.is_xip <;>
    cases hm : env.mmap_ok <;> cases hl : env.load_ok <;> cases hi : env.instantiate_ok <;>
    simp [held_from_cons, held_from_nil, held_step, acquires, releases, teardown_rank,
      cleanup, at_fail1, at_fail2, at_fail3, at_fail4, h2, h3, hf, hg, hd, hr, ha, hx, hm, hl, hi]

/-! ## Release of the module image -/

/-- Image releases split over concatenation. -/
theorem image_releases_append (t1 t2 : List Event) :
    image_releases (t1 ++ t2) = image_releases t1 ++ image_releases t2 := by
  simp [image_releases]

/-- Image releases of a trace, call by call. -/
theorem image_releases_cons (e : Event) (t : List Event) :
    image_releases (e :: t)
      = if is_image_release e then e :: image_releases t else image_releases t := by
  simp only [image_releases, List.filter_cons]

/-- No call, no image release. -/
theorem image_releases_nil : image_releases [] = [] := rfl

/-- Registering the built-in tables releases no image. -/
theorem register_builtins_image (env : Env) (l : List Builtin) :
    image_releases (register_builtins env l).1 = [] := by
  induction l with
  | nil => simp [register_builtins, image_releases]
  | cons a l ih =>
    simp only [register_builtins]
    split_ifs
    · simp [image_releases_cons, is_image_release, ih]
    · simp [image_releases_cons, image_releases_nil, is_image_release]

/-- The run stage releases no image. -/
theorem main_run_image (b : Build) (cfg : Config) (env : Env) (s : Locals) :
    image_releases (main_run b cfg env s).2.2 = [] := by
  simp only [main_run]
  split_ifs <;> (try split) <;>
    simp [image_releases_append, image_releases_cons, image_releases_nil, is_image_release]

/-- The load stage releases no image. -/
theorem main_load_image (b : Build) (cfg : Config) (env : Env) (s : Locals) :
    image_releases (main_load b cfg env s).2.2 = [] := by
  have h := main_run_image b cfg env s
  simp only [main_load]
  split_ifs <;>
    simp [image_releases_append, image_releases_cons, image_releases_nil, is_image_release, h]

/-- The image releases of the read stage: the heap buffer, when the image is
execute-in-place. -/
theorem main_read_image (b : Build) (cfg : Config) (env : Env) (s : Locals) :
    image_releases (main_read b cfg env s).2.2
      = (if env.read_file_ok && b.enable_aot && env.is_xip
          then [Event.wasm_runtime_free (some Buf.file)] else []) := by
  have h := fun s => main_load_image b cfg env s
  simp only [main_read]
  cases hr : env.read_file_ok <;> cases ha : b.enable_aot <;> cases hx : env.is_xip <;>
    cases hm : env.mmap_ok <;>
    simp [image_releases_append, image_releases_cons, image_releases_nil, is_image_release, h]

/-- The image releases of the straight-line part of `main`. -/
theorem main_body_image (b : Build) (cfg : Config) (env : Env) :
    image_releases (main_body b cfg env).2.2
      = (if env.full_init_ok && (register_builtins env builtins).2 && env.read_file_ok
            && b.enable_aot && env.is_xip
          then [Event.wasm_runtime_free (some Buf.file)] else []) := by
  have h := fun s => main_read_image b cfg env s
  have g := register_builtins_image env builtins
  simp only [main_body]
  cases hf : env.full_init_ok <;> cases hg : (register_builtins env builtins).2 <;>
    cases hd : b.has_dlfcn <;>
    simp [image_releases_append, image_releases_cons, image_releases_nil, is_image_release, h, g]
theorem register_builtins_ok (env : Env) (hreg : ∀ t, env.register_ok t = true)
    (l : List Builtin) : (register_builtins env l).2 = true := by
  induction l with
  | nil => rfl
  | cons a l ih => simp [register_builtins, hreg, ih]

/-- A relocated image: the straight-line part of `main` maps, copies and then
frees the heap buffer, in consecutive calls. -/
theorem main_body_relocation (b : Build) (cfg : Config) (env : Env)
    (hinit : env.full_init_ok = true) (hreg : ∀ t, env.register_ok t = true)
    (hread : env.read_file_ok = true) (ha : b.enable_aot = true) (hx : env.is_xip = true)
    (hm : env.mmap_ok = true) :
    ∃ pre post, (main_body b cfg env).2.2
      = pre ++ Event.os_mmap true :: Event.bh_memcpy_s (some Buf.mapped) (some Buf.file) ::
          Event.wasm_runtime_free (some Buf.file) :: post := by
  have hg := register_builtins_ok env hreg builtins
  simp only [main_body, main_read, hinit, hg, hread, ha, hx, hm, Bool.not_true, Bool.false_eq_true,
    if_false, if_true]
  have happ : ∀ (X Y W : List Event) (x y z : Event),
      X ++ (Y ++ [x, y, z] ++ W) = (X ++ Y) ++ x :: y :: z :: W := by
    intro X Y W x y z
    simp only [List.append_assoc, List.cons_append, List.nil_append]
  exact ⟨_, _, happ _ _ _ _ _ _⟩

/-- Claim C2: in every run that reads the module image, whatever the later
stages do: an execute-in-place image that was mapped has tag `is_xip_file`
set, its heap buffer is freed once, at relocation, and teardown releases the
mapping by `os_munmap` only; when the mapping fails the heap buffer is freed
once, control goes to `fail1` and teardown releases no image; any other image
has the tag clear and teardown releases the heap buffer by `wasm_runtime_free`
only. -/
theorem image_release_by_tag (b : Build) (cfg : Config) (env : Env)
    (hinit : env.full_init_ok = true) (hreg : ∀ t, env.register_ok t = true)
    (hread : env.read_file_ok = true) :
    if b.enable_aot && env.is_xip then
      image_releases (main_body b cfg env).2.2 = [Event.wasm_runtime_free (some Buf.file)]
      ∧ (if env.mmap_ok then
          (main_body b cfg env).2.1.is_xip_file = true
          ∧ (main_body b cfg env).2.1.wasm_file_buf = some Buf.mapped
          ∧ image_releases (cleanup b env (main_body b cfg env).2.1 (main_body b cfg env).1)
              = [Event.os_munmap (some Buf.mapped)]
          ∧ ∃ pre post, (main_body b cfg env).2.2
              = pre ++ Event.os_mmap true :: Event.bh_memcpy_s (some Buf.mapped) (some Buf.file) ::
                  Event.wasm_runtime_free (some Buf.file) :: post
        else
          (main_body b cfg env).1 = Label.fail1
          ∧ image_releases (cleanup b env (main_body b cfg env).2.1 (main_body b cfg env).1)
              = [])
    else
      (main_body b cfg env).2.1.is_xip_file = false
      ∧ (main_body b cfg env).2.1.wasm_file_buf = some Buf.file
      ∧ image_releases (main_body b cfg env).2.2 = []
      ∧ image_releases (cleanup b env (main_body b cfg env).2.1 (main_body b cfg env).1)
          = [Event.wasm_runtime_free (some Buf.file)] := by
  obtain ⟨h1, h2, h3, -, -⟩ := main_body_summary b cfg env
  have hg := register_builtins_ok env hreg builtins
  have himg := main_body_image b cfg env
  have hrel := main_body_relocation b cfg env hinit hreg hread
  rw [h1, h2, h3, himg]
  cases ha : b.enable_aot <;> cases hx : env.is_xip <;> cases hm : env.mmap_ok <;>
    cases hl : env.load_ok <;> cases hi : env.instantiate_ok <;> cases hd : b.has_dlfcn <;>
    simp [hinit, hg, hread, cleanup, at_fail1, at_fail2, at_fail3, at_fail4,
      image_releases_append, image_releases_cons, image_releases_nil, is_image_release,
      ha, hd, hx, hm, hl, hi, hrel, h2, h3]

/-- A run of `image_release_by_tag`: an execute-in-place image whose load
fails. -/
theorem image_release_by_tag_witness :
    xip_env.full_init_ok = true ∧ (∀ t, xip_env.register_ok t = true)
      ∧ xip_env.read_file_ok = true
      ∧ image_releases (main_body full_build demo_config xip_env).2.2
          = [Event.wasm_runtime_free (some Buf.file)]
      ∧ image_releases (cleanup full_build xip_env (main_body full_build demo_config xip_env).2.1
            (main_body full_build demo_config xip_env).1)
          = [Event.os_munmap (some Buf.mapped)] :=
  have h := image_release_by_tag full_build demo_config xip_env rfl (fun _ => rfl) rfl
  ⟨rfl, fun _ => rfl, rfl, h.1, h.2.2.2.1⟩

/-! ## Native libraries -/

/-- What one pass of the unload loop does for a handle. -/
theorem unload_one_summary (env : DlEnv) (h : Handle) :
    looked_up_handles (unload_one env h) = [h]
      ∧ closed_handles (unload_one env h) = (if unload_succeeds env h then [h] else [])
      ∧ unregistered_tables (unload_one env h) = (recomputed_table env h).toList := by
  rcases hl : env.get_native_lib h with _ | ⟨n, name, table⟩
  · simp [unload_one, unload_succeeds, recomputed_table, hl, looked_up_handles, closed_handles,
      unregistered_tables]
  · by_cases hn : n = 0 <;> cases name <;> cases table <;>
      simp [unload_one, unload_succeeds, recomputed_table, hl, looked_up_handles, closed_handles,
        unregistered_tables, hn] <;>
      split_ifs <;> simp_all

/-- Claim C3: `unregister_and_unload_native_libs` looks up every handle once,
in list order; it closes exactly the handles for which lookup, recomputation
and unregistration all succeed, and unregisters exactly the tables it can
still recompute; the closed handles are a sublist of the list (no entry is
closed twice); and when all succeed for every handle, all `N` are closed. -/
theorem unload_closes_what_it_unregisters (env : DlEnv) (handles : List Handle) :
    looked_up_handles (unregister_and_unload_native_libs env handles) = handles
      ∧ closed_handles (unregister_and_unload_native_libs env handles)
          = handles.filter (unload_succeeds env)
      ∧ unregistered_tables (unregister_and_unload_native_libs env handles)
          = handles.filterMap (recomputed_table env)
      ∧ (closed_handles (unregister_and_unload_native_libs env handles)).Sublist handles
      ∧ ((∀ h ∈ handles, unload_succeeds env h = true) →
          closed_handles (unregister_and_unload_native_libs env handles) = handles
          ∧ (closed_handles (unregister_and_unload_native_libs env handles)).length
              = handles.length) := by
  have key : looked_up_handles (unregister_and_unload_native_libs env handles) = handles
      ∧ closed_handles (unregister_and_unload_native_libs env handles)
          = handles.filter (unload_succeeds env)
      ∧ unregistered_tables (unregister_and_unload_native_libs env handles)
          = handles.filterMap (recomputed_table env) := by
    induction handles with
    | nil => simp [unregister_and_unload_native_libs, looked_up_handles, closed_handles,
        unregistered_tables]
    | cons h rest ih =>
      obtain ⟨h1, h2, h3⟩ := unload_one_summary env h
      obtain ⟨i1, i2, i3⟩ := ih
      simp only [looked_up_handles, closed_handles, unregistered_tables] at h1 h2 h3 i1 i2 i3 ⊢
      simp only [unregister_and_unload_native_libs, List.filterMap_append, h1, h2, h3, i1, i2, i3]
      refine ⟨by simp, ?_, ?_⟩
      · cases hs : unload_succeeds env h <;> simp [List.filter_cons, hs]
      · cases hr : recomputed_table env h <;> simp [List.filterMap_cons, hr]
  obtain ⟨k1, k2, k3⟩ := key
  refine ⟨k1, k2, k3, ?_, ?_⟩
  · rw [k2]
    exact List.filter_sublist handles
  · intro hall
    have : handles.filter (unload_succeeds env) = handles := List.filter_eq_self.mpr hall
    rw [k2, this]
    exact ⟨rfl, rfl⟩

/-- A run of `unload_closes_what_it_unregisters`: both handles of a list
recompute and unregister, so both are closed. -/
theorem unload_closes_what_it_unregisters_witness :
    (∀ h ∈ [7, 7], unload_succeeds demo_dl h = true)
      ∧ closed_handles (unregister_and_unload_native_libs demo_dl [7, 7]) = [7, 7] :=
  ⟨by decide, ((unload_closes_what_it_unregisters demo_dl [7, 7]).2.2.2.2 (by decide)).1⟩

/-- What one pass of the load loop does for a library. -/
theorem load_one_summary (env : DlEnv) (path : String) :
    (load_one env path).1 = accepted_handle env path
      ∧ closed_handles (load_one env path).2 = (rejected_handle env path).toList
      ∧ dlopen_calls (load_one env path).2 = expected_dlopen_calls env path := by
  simp only [load_one, accepted_handle, rejected_handle, opened_handle, expected_dlopen_calls,
    registers]
  rcases hnow : env.dlopen_now path with _ | h
  · rcases hlazy : env.dlopen_lazy path with _ | h
    · simp [closed_handles, dlopen_calls]
    · rcases hl : env.get_native_lib h with _ | ⟨n, name, table⟩
      · simp [closed_handles, dlopen_calls, hl, Option.filter]
      · by_cases hn : n > 0 <;> cases name <;> cases table <;>
          simp [closed_handles, dlopen_calls, hl, hn, Option.filter] <;>
          split_ifs <;> simp_all
  · rcases hl : env.get_native_lib h with _ | ⟨n, name, table⟩
    · simp [closed_handles, dlopen_calls, hl, Option.filter]
    · by_cases hn : n > 0 <;> cases name <;> cases table <;>
        simp [closed_handles, dlopen_calls, hl, hn, Option.filter] <;>
        split_ifs <;> simp_all

/-- The load loop from any state: it appends the accepted handles, counts
them, and closes the rejected ones. -/
theorem load_loop_summary (env : DlEnv) (paths : List String) (st : LoadState) :
    (load_loop env paths st).native_handle_list
        = st.native_handle_list ++ paths.filterMap (accepted_handle env)
      ∧ (load_loop env paths st).native_handle_count
        = st.native_handle_count + (paths.filterMap (accepted_handle env)).length
      ∧ closed_handles (load_loop env paths st).trace
        = closed_handles st.trace ++ paths.filterMap (rejected_handle env)
      ∧ dlopen_calls (load_loop env paths st).trace
        = dlopen_calls st.trace ++ paths.flatMap (expected_dlopen_calls env) := by
  induction paths generalizing st with
  | nil => simp [load_loop]
  | cons p rest ih =>
    obtain ⟨h1, h2, h3⟩ := load_one_summary env p
    rcases hone : load_one env p with ⟨_ | h, t⟩
    · rw [hone] at h1 h2 h3
      simp only at h1 h2 h3
      simp only [load_loop, hone]
      obtain ⟨i1, i2, i3, i4⟩ := ih { st with trace := st.trace ++ t }
      simp only [i1, i2, i3, i4]
      simp only [closed_handles, dlopen_calls, List.filterMap_append] at h2 h3 ⊢
      rw [h2, h3]
      cases hr : rejected_handle env p <;>
        simp [List.filterMap_cons, ← h1, hr, List.flatMap_cons, List.append_assoc]
    · rw [hone] at h1 h2 h3
      simp only at h1 h2 h3
      simp only [load_loop, hone]
      obtain ⟨i1, i2, i3, i4⟩ := ih ⟨st.native_handle_list ++ [h], st.native_handle_count + 1,
        st.trace ++ t⟩
      simp only [i1, i2, i3, i4]
      simp only [closed_handles, dlopen_calls, List.filterMap_append] at h2 h3 ⊢
      rw [h2, h3]
      cases hr : rejected_handle env p <;>
        simp [List.filterMap_cons, ← h1, hr, List.flatMap_cons, List.append_assoc] <;> omega

/-- Claim C4: for at most 8 library paths, `load_and_register_native_libs`
stores, in input order, exactly the handles of the libraries that open and
pass every later step; it closes, once each, exactly the handles of the
libraries that open but fail a later step, and never stores those; the
returned count is the number of stored handles and is at most the number of
paths (so at most 8); lazy mode is tried only after resolve-now/global mode
failed; and every path is processed, whatever failed before it. -/
theorem load_keeps_registered_handles (env : DlEnv) (paths : List String)
    (hcap : paths.length ≤ 8) :
    (load_and_register_native_libs env paths).native_handle_list
        = paths.filterMap (accepted_handle env)
      ∧ closed_handles (load_and_register_native_libs env paths).trace
        = paths.filterMap (rejected_handle env)
      ∧ (∀ p, accepted_handle env p = none ∨ rejected_handle env p = none)
      ∧ (load_and_register_native_libs env paths).native_handle_count
        = (load_and_register_native_libs env paths).native_handle_list.length
      ∧ (load_and_register_native_libs env paths).native_handle_count ≤ paths.length
      ∧ (load_and_register_native_libs env paths).native_handle_count ≤ 8
      ∧ dlopen_calls (load_and_register_native_libs env paths).trace
        = paths.flatMap (expected_dlopen_calls env) := by
  obtain ⟨h1, h2, h3, h4⟩ := load_loop_summary env paths ⟨[], 0, []⟩
  have hlen : (paths.filterMap (accepted_handle env)).length ≤ paths.length :=
    List.length_filterMap_le _ _
  simp only [List.nil_append, Nat.zero_add, closed_handles, dlopen_calls, List.filterMap_nil]
    at h1 h2 h3 h4
  refine ⟨h1, h3, ?_, ?_, ?_, ?_, h4⟩
  · intro p
    simp only [accepted_handle, rejected_handle]
    cases opened_handle env p with
    | none => simp
    | some h => cases hr : registers env h <;> simp [Option.filter, hr]
  · simp only [load_and_register_native_libs, h1, h2]
  · simp only [load_and_register_native_libs, h2]
    exact hlen
  · simp only [load_and_register_native_libs, h2]
    omega

/-- A run of `load_keeps_registered_handles`: of three libraries the first is
stored, the second is opened lazily and closed again, the third does not
open. -/
theorem load_keeps_registered_handles_witness :
    ["a.so", "b.so", "c.so"].length ≤ 8
      ∧ (load_and_register_native_libs demo_dl ["a.so", "b.so", "c.so"]).native_handle_list
          = ["a.so", "b.so", "c.so"].filterMap (accepted_handle demo_dl)
      ∧ closed_handles (load_and_register_native_libs demo_dl ["a.so", "b.so", "c.so"]).trace
          = ["a.so", "b.so", "c.so"].filterMap (rejected_handle demo_dl) :=
  have h := load_keeps_registered_handles demo_dl ["a.so", "b.so", "c.so"] (by decide)
  ⟨by decide, h.1, h.2.1⟩

/-! ## The microtask drain -/

/-- The size of a queue is additive. -/
theorem queue_size_append (a b : List Job) :
    queue_size (a ++ b) = queue_size a + queue_size b := by
  induction a with
  | nil => simp [queue_size]
  | cons j a ih => simp [queue_size, ih, Nat.add_assoc]

/-- The inner loop on an empty queue: one call, result 0. -/
theorem pending_jobs_loop_nil :
    pending_jobs_loop [] = ([TaskEvent.execute_pending_jobs none 0], []) := by
  rw [pending_jobs_loop]
  simp [dyntype_execute_pending_jobs]

/-- The inner loop when the job at the head fails: the error is dumped and the
loop is left. -/
theorem pending_jobs_loop_fail (tag : Nat) (enqueues rest : List Job) :
    pending_jobs_loop (Job.mk tag true enqueues :: rest)
      = ([TaskEvent.execute_pending_jobs (some tag) (-1), TaskEvent.dump_error],
          rest ++ enqueues) := by
  rw [pending_jobs_loop]
  simp [dyntype_execute_pending_jobs, Job.tag]

/-- The inner loop when the job at the head succeeds. -/
theorem pending_jobs_loop_ok (tag : Nat) (enqueues rest : List Job) :
    pending_jobs_loop (Job.mk tag false enqueues :: rest)
      = (if (rest ++ enqueues).isEmpty then ([TaskEvent.execute_pending_jobs (some tag) 0], [])
          else
            (TaskEvent.execute_pending_jobs (some tag) ((rest ++ enqueues).length : Int) ::
              (pending_jobs_loop (rest ++ enqueues)).1,
             (pending_jobs_loop (rest ++ enqueues)).2)) := by
  rw [pending_jobs_loop]
  simp only [dyntype_execute_pending_jobs, Job.tag, List.head?_cons, Option.map_some']
  rcases hq : rest ++ enqueues with _ | ⟨j, q⟩
  · simp
  · have hpos : ¬ (((j :: q).length : Int) ≤ 0) := by
      simp only [List.length_cons, Nat.cast_add, Nat.cast_one]
      omega
    simp only [Bool.false_eq_true, if_false, hpos, List.isEmpty_cons]

/-- Unfolding of `execute_micro_tasks`: one pass, then the poll. -/
theorem execute_micro_tasks_eq (ctx : List Job) :
    execute_micro_tasks ctx
      = ((pending_jobs_loop ctx).1 ++ [TaskEvent.events_poll (-1)], (pending_jobs_loop ctx).2) := by
  rw [execute_micro_tasks]
  simp [events_poll]

/-- The calls of the inner loop: successful runs that leave more to run, and
then either a call with result 0, which leaves the queue empty, or a failed
run followed by the error dump. -/
theorem pending_jobs_loop_shape (ctx : List Job) :
    ∃ pre, (∀ e ∈ pre, is_progress e = true) ∧
      ((∃ j, (pending_jobs_loop ctx).1 = pre ++ [TaskEvent.execute_pending_jobs j 0]
          ∧ (pending_jobs_loop ctx).2 = [])
        ∨ (∃ j, (pending_jobs_loop ctx).1
            = pre ++ [TaskEvent.execute_pending_jobs (some j) (-1), TaskEvent.dump_error])) := by
  obtain ⟨n, h⟩ : ∃ n, queue_size ctx = n := ⟨_, rfl⟩
  induction n using Nat.strong_induction_on generalizing ctx with
  | _ n ih =>
    match ctx, h with
    | [], _ => exact ⟨[], by simp, Or.inl ⟨none, by simp [pending_jobs_loop_nil]⟩⟩
    | Job.mk tag true enq :: rest, _ =>
      exact ⟨[], by simp, Or.inr ⟨tag, by simp [pending_jobs_loop_fail]⟩⟩
    | Job.mk tag false enq :: rest, h =>
      rw [pending_jobs_loop_ok]
      split_ifs with he
      · exact ⟨[], by simp, Or.inl ⟨some tag, by simp⟩⟩
      · have hlt : queue_size (rest ++ enq) < n := by
          rw [← h, queue_size_append]
          simp only [queue_size, Job.size]
          omega
        obtain ⟨pre, hp, hcase⟩ := ih (queue_size (rest ++ enq)) hlt (rest ++ enq) rfl
        have hpos : 0 < (rest ++ enq).length := by
          cases hq : rest ++ enq with
          | nil => simp [hq] at he
          | cons a l => simp
        refine ⟨TaskEvent.execute_pending_jobs (some tag) ((rest ++ enq).length : Int) :: pre,
          ?_, ?_⟩
        · intro e hmem
          rcases List.mem_cons.mp hmem with rfl | hmem
          · simp only [is_progress, decide_eq_true_eq]
            omega
          · exact hp e hmem
        · rcases hcase with ⟨j, h1, h2⟩ | ⟨j, h1⟩
          · exact Or.inl ⟨j, by simp [h1], h2⟩
          · exact Or.inr ⟨j, by simp [h1]⟩

/-- Successful runs contain neither an error dump nor a failed call. -/
theorem progress_no_failure (pre : List TaskEvent) (hp : ∀ e ∈ pre, is_progress e = true) :
    pre.count TaskEvent.dump_error = 0 ∧ pre.filter is_failed_call = []
      ∧ pre.all is_progress = true := by
  induction pre with
  | nil => simp
  | cons e pre ih =>
    have he := hp e (List.mem_cons_self _ _)
    obtain ⟨i1, i2, i3⟩ := ih (fun x hx => hp x (List.mem_cons_of_mem _ hx))
    match e, he with
    | TaskEvent.execute_pending_jobs (some j) err, he =>
      simp only [is_progress, decide_eq_true_eq] at he
      have hneg : ¬ err < 0 := by omega
      refine ⟨?_, ?_, ?_⟩
      · rw [List.count_cons, i1]
        simp
      · rw [List.filter_cons]
        simp [is_failed_call, hneg, i2]
      · simp only [List.all_cons, i3, is_progress, Bool.and_true, decide_eq_true_eq]
        exact he

/-- Claim C5, as amended: `execute_micro_tasks` makes one pass: it runs jobs
while `dyntype_execute_pending_jobs` reports more to run, stops at the first
result that is not positive, dumps the error if that result is negative, polls
once and returns. When that result is 0 no job remains queued; on an empty
queue it returns at once. -/
theorem micro_tasks_return_state (ctx : List Job) :
    (∃ pre j err, pre.all is_progress = true ∧ err ≤ 0
        ∧ (execute_micro_tasks ctx).1
            = pre ++ TaskEvent.execute_pending_jobs j err ::
                ((if err < 0 then [TaskEvent.dump_error] else []) ++
                  [TaskEvent.events_poll (-1)])
        ∧ (err = 0 ∧ (execute_micro_tasks ctx).2 = [] ∨ err < 0))
      ∧ execute_micro_tasks []
          = ([TaskEvent.execute_pending_jobs none 0, TaskEvent.events_poll (-1)], []) := by
  refine ⟨?_, by simp [execute_micro_tasks_eq, pending_jobs_loop_nil]⟩
  obtain ⟨pre, hp, hcase⟩ := pending_jobs_loop_shape ctx
  have hall := (progress_no_failure pre hp).2.2
  rw [execute_micro_tasks_eq]
  rcases hcase with ⟨j, h1, h2⟩ | ⟨j, h1⟩
  · exact ⟨pre, j, 0, hall, le_refl _, by simp [h1], Or.inl ⟨rfl, h2⟩⟩
  · exact ⟨pre, some j, -1, hall, by omega, by simp [h1], Or.inr (by omega)⟩

/-- Claim C5 fails as stated: with a failing job at the head of the queue,
`execute_micro_tasks` returns while the two jobs behind it are still queued. -/
theorem micro_tasks_return_with_jobs_queued :
    (execute_micro_tasks [Job.mk 1 true [], Job.mk 2 false [], Job.mk 3 false []]).2.map Job.tag
      = [2, 3] := by
  simp [execute_micro_tasks_eq, pending_jobs_loop_fail, Job.tag]

/-- Claim C6, as amended: a failed job is reported by `dyntype_dump_error`
exactly once and ends the drain. When the job at the head of the queue fails,
nothing else runs and the jobs behind it (and those it enqueued) stay queued;
in every run the number of error dumps is the number of failed calls, at most
one, and after an error dump only the poll follows. -/
theorem micro_tasks_stop_at_failure (ctx rest enqueues : List Job) (tag : Nat) :
    execute_micro_tasks (Job.mk tag true enqueues :: rest)
        = ([TaskEvent.execute_pending_jobs (some tag) (-1), TaskEvent.dump_error,
            TaskEvent.events_poll (-1)], rest ++ enqueues)
      ∧ (execute_micro_tasks ctx).1.count TaskEvent.dump_error
          = ((execute_micro_tasks ctx).1.filter is_failed_call).length
      ∧ (execute_micro_tasks ctx).1.count TaskEvent.dump_error ≤ 1
      ∧ ((execute_micro_tasks ctx).1.count TaskEvent.dump_error = 0
          ∨ ∃ pre j, pre.all is_progress = true
              ∧ (execute_micro_tasks ctx).1
                = pre ++ [TaskEvent.execute_pending_jobs (some j) (-1), TaskEvent.dump_error,
                    TaskEvent.events_poll (-1)]) := by
  refine ⟨by simp [execute_micro_tasks_eq, pending_jobs_loop_fail], ?_⟩
  obtain ⟨pre, hp, hcase⟩ := pending_jobs_loop_shape ctx
  obtain ⟨c1, c2, c3⟩ := progress_no_failure pre hp
  rw [execute_micro_tasks_eq]
  rcases hcase with ⟨j, h1, -⟩ | ⟨j, h1⟩
  · simp only [h1]
    refine ⟨?_, ?_, Or.inl ?_⟩ <;>
      simp [List.count_append, List.filter_append, c1, c2, is_failed_call, List.count_cons]
  · simp only [h1]
    refine ⟨?_, ?_, Or.inr ⟨pre, j, c3, by simp⟩⟩ <;>
      simp [List.count_append, List.filter_append, c1, c2, is_failed_call, List.count_cons]

/-- Claim C6 fails as stated: the first job fails, its error is dumped, and the
job queued behind it is never executed before the function returns. -/
theorem micro_tasks_drain_stops_at_failure :
    (execute_micro_tasks [Job.mk 1 true [], Job.mk 2 false []]).1
      = [TaskEvent.execute_pending_jobs (some 1) (-1), TaskEvent.dump_error,
          TaskEvent.events_poll (-1)] := by
  simp [execute_micro_tasks_eq, pending_jobs_loop_fail]

/-! ## The command splitter -/

/-- One iteration of the splitting loop. -/
theorem split_loop_eq (realloc_ok : Nat → Bool) (text : List Char)
    (res : List (Option (List Char))) :
    split_loop realloc_ok text res
      = (if realloc_ok (res.length + 1) then
          (match strtok text with
            | none => some (res ++ [none])
            | some (tok, rest) => split_loop realloc_ok rest (res ++ [some tok]))
         else none) := by
  rw [split_loop]
  split <;> rename_i h <;> simp [h]

/-- Leading spaces are skipped by `strtok`. -/
theorem strtok_cons_space (t : List Char) : strtok (' ' :: t) = strtok t := by
  simp [strtok, List.dropWhile_cons]

/-- On a non-empty space-free word followed by the end of the text or by a
space, `strtok` returns the word and moves past that space. -/
theorem strtok_word (x rest : List Char) (hne : x ≠ []) (hx : ' ' ∉ x)
    (hrest : rest = [] ∨ ∃ r, rest = ' ' :: r) :
    strtok (x ++ rest) = some (x, rest.drop 1) := by
  have hd : ∀ (y : List Char), ' ' ∉ y → y ≠ [] →
      List.dropWhile (fun c => c == ' ') (y ++ rest) = y ++ rest := by
    intro y hy hyne
    cases y with
    | nil => exact absurd rfl hyne
    | cons c cs =>
      have hc : c ≠ ' ' := fun h => hy (h ▸ List.mem_cons_self _ _)
      simp [List.dropWhile_cons, hc]
  have ht : ∀ (y : List Char), ' ' ∉ y →
      List.takeWhile (fun c => c != ' ') (y ++ rest) = y
      ∧ List.dropWhile (fun c => c != ' ') (y ++ rest) = rest := by
    intro y
    induction y with
    | nil =>
      intro _
      rcases hrest with rfl | ⟨r, rfl⟩ <;> simp [List.takeWhile_cons, List.dropWhile_cons]
    | cons c cs ih =>
      intro hy
      have hc : c ≠ ' ' := fun h => hy (h ▸ List.mem_cons_self _ _)
      have hcs : ' ' ∉ cs := fun h => hy (List.mem_cons_of_mem _ h)
      obtain ⟨i1, i2⟩ := ih hcs
      simp [List.takeWhile_cons, List.dropWhile_cons, hc, i1, i2]
  have hne2 : x ++ rest ≠ [] := by simp [hne]
  simp only [strtok, hd x hx hne, (ht x hx).1, (ht x hx).2]
  simp [hne]

/-- The text of words, each preceded by one space, is empty or starts with a
space. -/
theorem spaced_words_head (xs : List (List Char)) :
    xs.flatMap (fun x => ' ' :: x) = []
      ∨ ∃ r, xs.flatMap (fun x => ' ' :: x) = ' ' :: r := by
  cases xs with
  | nil => exact Or.inl rfl
  | cons x xs => exact Or.inr ⟨x ++ xs.flatMap (fun x => ' ' :: x), by simp [List.flatMap_cons]⟩

/-- The splitting loop does not depend on one leading space. -/
theorem split_loop_drop_space (realloc_ok : Nat → Bool) (xs : List (List Char))
    (res : List (Option (List Char))) :
    split_loop realloc_ok ((xs.flatMap (fun x => ' ' :: x)).drop 1) res
      = split_loop realloc_ok (xs.flatMap (fun x => ' ' :: x)) res := by
  cases xs with
  | nil => rfl
  | cons x xs =>
    simp only [List.flatMap_cons, List.cons_append, List.drop_succ_cons, List.drop_zero]
    rw [split_loop_eq, split_loop_eq realloc_ok (' ' :: _), strtok_cons_space]

/-- The splitting loop on words separated by single spaces appends the words
and the NULL end marker. -/
theorem split_loop_words (realloc_ok : Nat → Bool) (hok : ∀ n, realloc_ok n = true)
    (xs : List (List Char)) (hxs : ∀ x ∈ xs, x ≠ [] ∧ ' ' ∉ x)
    (res : List (Option (List Char))) :
    split_loop realloc_ok (xs.flatMap (fun x => ' ' :: x)) res
      = some (res ++ xs.map some ++ [none]) := by
  induction xs generalizing res with
  | nil =>
    rw [split_loop_eq]
    simp [hok, strtok]
  | cons x xs ih =>
    obtain ⟨hne, hx⟩ := hxs x (List.mem_cons_self _ _)
    have hxs2 : ∀ y ∈ xs, y ≠ [] ∧ ' ' ∉ y := fun y hy => hxs y (List.mem_cons_of_mem _ hy)
    rw [split_loop_eq]
    simp only [List.flatMap_cons, List.cons_append, strtok_cons_space,
      strtok_word x _ hne hx (spaced_words_head xs), hok, if_true]
    rw [split_loop_drop_space, ih hxs2]
    simp

/-- The result of `split_string` on a first word followed by words that are
each preceded by one space: the first word with its backslashes replaced, the
other words unchanged, the end marker, and the number of words. -/
theorem split_string_words (realloc_ok : Nat → Bool) (hok : ∀ n, realloc_ok n = true)
    (x0 : List Char) (h0 : x0 ≠ [] ∧ ' ' ∉ x0)
    (xs : List (List Char)) (hxs : ∀ x ∈ xs, x ≠ [] ∧ ' ' ∉ x) :
    split_string realloc_ok (x0 ++ xs.flatMap (fun x => ' ' :: x))
      = SplitResult.ok (some (unescape x0) :: (xs.map some ++ [none])) ((xs.length : Int) + 1) := by
  have h := split_loop_eq realloc_ok (x0 ++ xs.flatMap (fun x => ' ' :: x)) []
  simp only [strtok_word x0 _ h0.1 h0.2 (spaced_words_head xs), hok, if_true] at h
  rw [split_loop_drop_space, split_loop_words realloc_ok hok xs hxs] at h
  simp only [split_string, h]
  simp

/-- The backslash replacement leaves a word without backslashes unchanged. -/
theorem unescape_id (a : List Char) (ha : '\\' ∉ a) : unescape a = a := by
  induction a with
  | nil => rfl
  | cons c cs ih =>
    have hc : c ≠ '\\' := fun h => ha (h ▸ List.mem_cons_self _ _)
    simp [unescape, hc, ih (fun h => ha (List.mem_cons_of_mem _ h))]

/-- The backslash replacement works through a concatenation. -/
theorem unescape_append (a b : List Char) : unescape (a ++ b) = unescape a ++ unescape b := by
  induction a with
  | nil => rfl
  | cons c cs ih => simp [unescape, ih]

/-- Claim C7, as amended: a backslash inside the first token is replaced by a
space and stays inside the function name. A line `a\b x1 ... xk`, with `a` and
`b` free of spaces and backslashes and every `xi` non-empty and free of
spaces, yields the name `a b` and the arguments `x1 ... xk` (`k + 1` tokens);
a space after the backslash ends the first token, so the line `a\ b x1 ... xk`
yields the name `a` followed by a space, and the arguments `b x1 ... xk`
(`k + 2` tokens). -/
theorem split_string_backslash (realloc_ok : Nat → Bool) (a b : List Char)
    (xs : List (List Char)) (hok : ∀ n, realloc_ok n = true)
    (ha : ' ' ∉ a ∧ '\\' ∉ a) (hb : b ≠ [] ∧ ' ' ∉ b ∧ '\\' ∉ b)
    (hxs : ∀ x ∈ xs, x ≠ [] ∧ ' ' ∉ x) :
    split_string realloc_ok (a ++ '\\' :: b ++ xs.flatMap (fun x => ' ' :: x))
        = SplitResult.ok (some (a ++ ' ' :: b) :: (xs.map some ++ [none])) ((xs.length : Int) + 1)
      ∧ split_string realloc_ok (a ++ '\\' :: ' ' :: b ++ xs.flatMap (fun x => ' ' :: x))
        = SplitResult.ok (some (a ++ [' ']) :: some b :: (xs.map some ++ [none]))
            ((xs.length : Int) + 2) := by
  constructor
  · have h0 : (a ++ '\\' :: b) ≠ [] ∧ ' ' ∉ (a ++ '\\' :: b) := by
      refine ⟨by simp, ?_⟩
      simp only [List.mem_append, List.mem_cons, not_or]
      exact ⟨ha.1, by decide, hb.2.1⟩
    have h := split_string_words realloc_ok hok (a ++ '\\' :: b) h0 xs hxs
    simp only [unescape_append, unescape, unescape_id a ha.2, unescape_id b hb.2.2, if_true] at h
    simpa [List.append_assoc] using h
  · have h0 : (a ++ ['\\']) ≠ [] ∧ ' ' ∉ (a ++ ['\\']) := by
      refine ⟨by simp, ?_⟩
      simp only [List.mem_append, List.mem_cons, not_or]
      exact ⟨ha.1, by decide, by simp⟩
    have hxs2 : ∀ x ∈ b :: xs, x ≠ [] ∧ ' ' ∉ x := by
      intro x hx
      rcases List.mem_cons.mp hx with rfl | hx
      · exact ⟨hb.1, hb.2.1⟩
      · exact hxs x hx
    have h := split_string_words realloc_ok hok (a ++ ['\\']) h0 (b :: xs) hxs2
    simp only [unescape_append, unescape, unescape_id a ha.2, if_true, List.flatMap_cons,
      List.map_cons, List.length_cons] at h
    have e1 : a ++ '\\' :: ' ' :: b ++ xs.flatMap (fun x => ' ' :: x)
        = a ++ ['\\'] ++ (' ' :: b ++ xs.flatMap (fun x => ' ' :: x)) := by simp
    have e2 : (((xs.length + 1 : Nat) : Int)) + 1 = (xs.length : Int) + 2 := by
      push_cast
      ring
    rw [e1, h, e2]
    simp

/-- A run of `split_string_backslash` on the lines `foo\bar 1 2` and
`foo\ bar 1 2`. -/
theorem split_string_backslash_witness :
    split_string (fun _ => true) "foo\\bar 1 2".toList
        = SplitResult.ok [some "foo bar".toList, some "1".toList, some "2".toList, none] 3
      ∧ split_string (fun _ => true) "foo\\ bar 1 2".toList
        = SplitResult.ok
            [some "foo ".toList, some "bar".toList, some "1".toList, some "2".toList, none] 4 :=
  split_string_backslash (fun _ => true) "foo".toList "bar".toList ["1".toList, "2".toList]
    (fun _ => rfl) (by decide) (by decide) (by decide)

/-- Claim C7 fails as stated: on the line `foo\ bar 1 2` the function name is
`foo` followed by a space, `bar` is the first argument, and there are 4 tokens;
the name is not `foo bar`. -/
theorem split_string_escaped_space :
    split_string (fun _ => true) "foo\\ bar 1 2".toList
        = SplitResult.ok
            [some "foo ".toList, some "bar".toList, some "1".toList, some "2".toList, none] 4
      ∧ split_string (fun _ => true) "foo\\ bar 1 2".toList
        ≠ SplitResult.ok [some "foo bar".toList, some "1".toList, some "2".toList, none] 3 := by
  have h : split_string (fun _ => true) "foo\\ bar 1 2".toList
      = SplitResult.ok
          [some "foo ".toList, some "bar".toList, some "1".toList, some "2".toList, none] 4 := by
    simp [split_string, split_loop_eq, strtok, unescape]
  refine ⟨h, ?_⟩
  rw [h]
  decide

/-! ## Tokens -/

/-- The tokens of the empty text. -/
theorem tokens_nil : tokens [] = [] := by
  simp [tokens, List.splitOnP_nil]

/-- A leading space does not change the tokens. -/
theorem tokens_cons_space (t : List Char) : tokens (' ' :: t) = tokens t := by
  simp [tokens, List.splitOnP_cons]

/-- Splitting at spaces: the first piece runs to the first space, the other
pieces come from the text after that space. -/
theorem splitOnP_space (s : List Char) :
    s.splitOnP (fun c => c == ' ')
      = s.takeWhile (fun c => c != ' ') ::
          (match s.dropWhile (fun c => c != ' ') with
            | [] => []
            | _ :: r => r.splitOnP (fun c => c == ' ')) := by
  induction s with
  | nil => simp [List.splitOnP_nil]
  | cons c cs ih =>
    rw [List.splitOnP_cons]
    by_cases hc : c = ' '
    · simp [hc, List.takeWhile_cons, List.dropWhile_cons]
    · have hb : (c == ' ') = false := by simpa using hc
      rw [ih]
      simp [hb, List.takeWhile_cons, List.dropWhile_cons, hc, List.modifyHead]

/-- The tokens of a text that starts with a character other than the space:
the first token runs to the first space. -/
theorem tokens_word (c : Char) (cs : List Char) (hc : c ≠ ' ') :
    tokens (c :: cs)
      = (c :: cs).takeWhile (fun c => c != ' ') ::
          tokens (((c :: cs).dropWhile (fun c => c != ' ')).drop 1) := by
  rw [tokens, splitOnP_space]
  have hne : ((c :: cs).takeWhile (fun c => c != ' ')).isEmpty = false := by
    simp [List.takeWhile_cons, hc]
  rw [List.filter_cons]
  simp only [hne, Bool.not_false, if_true]
  congr 1
  rcases hd : (c :: cs).dropWhile (fun c => c != ' ') with _ | ⟨d, r⟩
  · simp [tokens, List.splitOnP_nil]
  · simp [tokens]

/-- What one call of `strtok` returns, in terms of the tokens of the text. -/
theorem strtok_spec (text : List Char) :
    (strtok text = none ∧ tokens text = [])
      ∨ ∃ tok rest, strtok text = some (tok, rest) ∧ tokens text = tok :: tokens rest
          ∧ rest.length < text.length := by
  induction text with
  | nil => exact Or.inl ⟨by simp [strtok], tokens_nil⟩
  | cons c cs ih =>
    by_cases hc : c = ' '
    · subst hc
      rw [strtok_cons_space, tokens_cons_space]
      rcases ih with h | ⟨tok, rest, h1, h2, h3⟩
      · exact Or.inl h
      · exact Or.inr ⟨tok, rest, h1, h2, by simp only [List.length_cons]; omega⟩
    · refine Or.inr ⟨(c :: cs).takeWhile (fun c => c != ' '),
        ((c :: cs).dropWhile (fun c => c != ' ')).drop 1, ?_, tokens_word c cs hc, ?_⟩
      · simp [strtok, List.dropWhile_cons, hc]
      · have h3 : (List.dropWhile (fun c => c != ' ') cs).length ≤ cs.length :=
          (List.dropWhile_sublist _).length_le
        simp only [List.dropWhile_cons, bne_iff_ne, ne_eq, hc, not_false_eq_true, decide_True,
          ite_true, List.length_drop, List.length_cons]
        omega

/-- The splitting loop appends the tokens of the text and the NULL end
marker, when every `realloc` succeeds. -/
theorem split_loop_tokens (realloc_ok : Nat → Bool) (hok : ∀ n, realloc_ok n = true)
    (text : List Char) (res : List (Option (List Char))) :
    split_loop realloc_ok text res = some (res ++ (tokens text).map some ++ [none]) := by
  obtain ⟨n, hn⟩ : ∃ n, text.length = n := ⟨_, rfl⟩
  induction n using Nat.strong_induction_on generalizing text res with
  | _ n ih =>
    rw [split_loop_eq]
    rcases strtok_spec text with ⟨h1, h2⟩ | ⟨tok, rest, h1, h2, h3⟩
    · simp [h1, h2, hok]
    · simp only [h1, h2, hok, if_true]
      rw [ih rest.length (hn ▸ h3) rest _ rfl]
      simp

/-- The result of `split_string` in terms of the tokens of its argument, when
every `realloc` succeeds. -/
theorem split_string_tokens (realloc_ok : Nat → Bool) (hok : ∀ n, realloc_ok n = true)
    (str : List Char) :
    split_string realloc_ok str
      = (match tokens str with
          | [] => SplitResult.null_deref
          | w :: ws =>
            SplitResult.ok (some (unescape w) :: (ws.map some ++ [none]))
              ((ws.length : Int) + 1)) := by
  simp only [split_string, split_loop_tokens realloc_ok hok str []]
  rcases tokens str with _ | ⟨w, ws⟩
  · simp
  · simp

/-! ## The REPL -/

/-- A buffer without NUL byte holds itself as C string. -/
theorem cstr_eq_self (s : List Char) (h : Char.ofNat 0 ∉ s) : cstr s = s := by
  rw [cstr, List.takeWhile_eq_self_iff]
  intro c hc
  have : c ≠ Char.ofNat 0 := fun e => h (e ▸ hc)
  simpa using this

/-- Stripping the newline keeps a buffer free of NUL bytes. -/
theorem strip_newline_no_nul (l : List Char) (h : Char.ofNat 0 ∉ l) :
    Char.ofNat 0 ∉ strip_newline l := by
  unfold strip_newline
  split_ifs
  · exact fun hm => h (List.dropLast_subset l hm)
  · exact h

/-- A line whose command is `__exit__` is the exit line, with or without the
newline. -/
theorem strip_newline_exit (l : List Char) (h : strip_newline l = "__exit__".toList) :
    is_exit_line l = true := by
  unfold strip_newline at h
  split_ifs at h with hl
  · have hne : l ≠ [] := by
      rintro rfl
      simp at hl
    have h2 := List.dropLast_append_getLast? '\n' (by simpa using hl)
    rw [h] at h2
    simp [is_exit_line, ← h2]
  · simp [is_exit_line, h]

/-- One pass of the REPL loop on an ordinary line: the line is read, its call
(if it has one) is dispatched, and the loop goes on. -/
theorem repl_ordinary_step (realloc_ok : Nat → Bool) (hok : ∀ n, realloc_ok n = true)
    (l : List Char) (rest : List (List Char)) (hl : ordinary_line l = true) :
    app_instance_repl realloc_ok (l :: rest)
      = ReplEvent.getline (some l) :: (dispatched l ++ app_instance_repl realloc_ok rest) := by
  simp only [ordinary_line, Bool.and_eq_true, Bool.or_eq_true, Bool.not_eq_true',
    List.isEmpty_eq_false, beq_iff_eq] at hl
  obtain ⟨⟨⟨hne, hnul⟩, hexit⟩, hkind⟩ := hl
  have hlen : l.length ≠ 0 := fun h => hne (List.length_eq_zero.mp h)
  rw [app_instance_repl]
  simp only [hlen, if_false]
  by_cases hblank : l = ['\n']
  · subst hblank
    have hd : dispatched ['\n'] = [] := by
      simp [dispatched, strip_newline, tokens_nil]
    simp [hd]
  · simp only [hblank, if_false]
    have htok : tokens (strip_newline l) ≠ [] := by
      rcases hkind with h | h
      · exact absurd h hblank
      · simpa using h
    have hnul2 : Char.ofNat 0 ∉ l := by simpa using hnul
    have hc : cstr (strip_newline l) = strip_newline l :=
      cstr_eq_self _ (strip_newline_no_nul l hnul2)
    have hnot : ¬ strip_newline l = "__exit__".toList := by
      intro h
      rw [strip_newline_exit l h] at hexit
      exact Bool.noConfusion hexit
    rcases hw : tokens (strip_newline l) with _ | ⟨w, ws⟩
    · exact absurd hw htok
    · have hsplit := split_string_tokens realloc_ok hok (strip_newline l)
      rw [hw] at hsplit
      have hargc : ¬ ((ws.length : Int) + 1 = 0) := by omega
      simp only [repl_command, hc, if_neg hnot, hsplit]
      simp [hargc, dispatched, hw]

/-- The REPL loop over ordinary lines: each is read and dispatched in turn, and
the loop goes on with what follows. -/
theorem repl_ordinary_lines (realloc_ok : Nat → Bool) (hok : ∀ n, realloc_ok n = true)
    (lines rest : List (List Char)) (hord : ∀ l ∈ lines, ordinary_line l = true) :
    app_instance_repl realloc_ok (lines ++ rest)
      = lines.flatMap (fun l => ReplEvent.getline (some l) :: dispatched l)
          ++ app_instance_repl realloc_ok rest := by
  induction lines with
  | nil => rfl
  | cons l lines ih =>
    have h1 := repl_ordinary_step realloc_ok hok l (lines ++ rest)
      (hord l (List.mem_cons_self _ _))
    rw [List.cons_append, h1, ih (fun x hx => hord x (List.mem_cons_of_mem _ hx))]
    simp [List.flatMap_cons]

/-- The REPL loop on the exit line: it is read, the loop ends, nothing is
dispatched and nothing further is read. -/
theorem repl_exit_step (realloc_ok : Nat → Bool) (l : List Char) (rest : List (List Char))
    (hl : is_exit_line l = true) :
    app_instance_repl realloc_ok (l :: rest)
      = [ReplEvent.getline (some l), ReplEvent.exit_repl] := by
  simp only [is_exit_line, Bool.or_eq_true, beq_iff_eq] at hl
  rcases hl with rfl | rfl <;>
    simp [app_instance_repl, repl_command, strip_newline, cstr]

/-- Claim C8: with every `realloc` succeeding, the REPL reads ordinary lines
(lone newlines and lines of text with at least one token) one after the
other; a lone newline dispatches nothing and the loop goes on; a line with
tokens is dispatched once, as a call of its first token with the remaining
tokens as arguments, in input order; the line `__exit__`, with or without
newline, ends the loop without a call and without reading a later line; the
end of input ends the loop. -/
theorem repl_dispatch (realloc_ok : Nat → Bool) (hok : ∀ n, realloc_ok n = true)
    (lines rest : List (List Char)) (exit_line : List Char)
    (hord : ∀ l ∈ lines, ordinary_line l = true) (hexit : is_exit_line exit_line = true) :
    app_instance_repl realloc_ok (lines ++ exit_line :: rest)
        = lines.flatMap (fun l => ReplEvent.getline (some l) :: dispatched l)
            ++ [ReplEvent.getline (some exit_line), ReplEvent.exit_repl]
      ∧ app_instance_repl realloc_ok lines
        = lines.flatMap (fun l => ReplEvent.getline (some l) :: dispatched l)
            ++ [ReplEvent.getline none]
      ∧ dispatched ['\n'] = []
      ∧ (∀ l ∈ lines, l ≠ ['\n'] →
          ∃ name args, tokens (strip_newline l) = name :: args
            ∧ dispatched l = [ReplEvent.execute_func (unescape name) (args.length : Int) args]) := by
  refine ⟨?_, ?_, ?_, ?_⟩
  · rw [repl_ordinary_lines realloc_ok hok lines _ hord, repl_exit_step realloc_ok _ rest hexit]
  · have h := repl_ordinary_lines realloc_ok hok lines [] hord
    simpa [app_instance_repl] using h
  · simp [dispatched, strip_newline, tokens_nil]
  · intro l hl hblank
    have h := hord l hl
    simp only [ordinary_line, Bool.and_eq_true, Bool.or_eq_true, Bool.not_eq_true',
      List.isEmpty_eq_false, beq_iff_eq] at h
    rcases h.2 with h2 | h2
    · exact absurd h2 hblank
    · rcases hw : tokens (strip_newline l) with _ | ⟨w, ws⟩
      · rw [hw] at h2
        simp at h2
      · exact ⟨w, ws, rfl, by simp [dispatched, hw]⟩

/-- A run of `repl_dispatch`: a command, a lone newline, the exit line, and a
line that is never read. -/
theorem repl_dispatch_witness :
    app_instance_repl (fun _ => true)
        ["a\\b 1\n".toList, "\n".toList, "__exit__\n".toList, "zz".toList]
      = [ReplEvent.getline (some "a\\b 1\n".toList),
          ReplEvent.execute_func "a b".toList 1 ["1".toList],
          ReplEvent.getline (some "\n".toList),
          ReplEvent.getline (some "__exit__\n".toList), ReplEvent.exit_repl] :=
  (repl_dispatch (fun _ => true) (fun _ => rfl) ["a\\b 1\n".toList, "\n".toList]
    ["zz".toList] "__exit__\n".toList (by decide) (by decide)).1

/-! ## Guest calls and status of `main` -/

/-- Guest calls split over concatenation. -/
theorem guest_calls_append (t1 t2 : List Event) :
    guest_calls (t1 ++ t2) = guest_calls t1 ++ guest_calls t2 := by
  simp [guest_calls]

/-- Guest calls of a trace, call by call. -/
theorem guest_calls_cons (e : Event) (t : List Event) :
    guest_calls (e :: t) = if is_guest_call e then e :: guest_calls t else guest_calls t := by
  simp only [guest_calls, List.filter_cons]

/-- No call, no guest call. -/
theorem guest_calls_nil : guest_calls [] = [] := rfl

/-- Registering the built-in tables calls no guest code and no drain. -/
theorem register_builtins_guest (env : Env) (l : List Builtin) :
    guest_calls (register_builtins env l).1 = []
      ∧ (register_builtins env l).1.filter is_drain = [] := by
  induction l with
  | nil => simp [register_builtins, guest_calls]
  | cons a l ih =>
    simp only [register_builtins]
    split_ifs
    · simp [guest_calls_cons, is_guest_call, is_drain, ih]
    · simp [guest_calls_cons, guest_calls_nil, is_guest_call, is_drain]

/-- The guest calls, drain and status of the run stage. -/
theorem main_run_guest (b : Build) (cfg : Config) (env : Env) (s : Locals) :
    guest_calls (main_run b cfg env s).2.2
        = (if !env.lookup_entry_ok then []
            else Event.wasm_runtime_call_wasm env.exec_env_ok "_entry" 0 env.call_entry_ok ::
              (if !env.call_entry_ok then [] else [selected_run_mode cfg env]))
      ∧ (main_run b cfg env s).2.2.filter is_drain
        = (if env.lookup_entry_ok && env.call_entry_ok then
            [Event.execute_micro_tasks env.exec_env_ok (execute_micro_tasks env.pending_jobs).1]
           else [])
      ∧ (main_run b cfg env s).2.1.ret
        = (if env.lookup_entry_ok && env.call_entry_ok then
            (if !cfg.is_repl_mode && env.exception.isSome then 1
              else if b.enable_libc_wasi then env.wasi_exit_code else 0)
           else 0) := by
  simp only [main_run, selected_run_mode]
  cases hl : env.lookup_entry_ok <;> cases hc : env.call_entry_ok <;>
    cases hr : cfg.is_repl_mode <;> cases hw : b.enable_libc_wasi <;>
    cases he : env.exception <;> cases hf : cfg.func_name <;>
    simp [guest_calls_append, guest_calls_cons, guest_calls_nil, is_guest_call, is_drain]

/-- The guest calls, drain and status of the load stage. -/
theorem main_load_guest (b : Build) (cfg : Config) (env : Env) (s : Locals) :
    guest_calls (main_load b cfg env s).2.2
        = (if env.load_ok && env.instantiate_ok
              && !(b.enable_debug_interp && cfg.ip_addr.isSome && !env.debug_instance_ok)
            then guest_calls (main_run b cfg env s).2.2 else [])
      ∧ (main_load b cfg env s).2.2.filter is_drain
        = (if env.load_ok && env.instantiate_ok
              && !(b.enable_debug_interp && cfg.ip_addr.isSome && !env.debug_instance_ok)
            then (main_run b cfg env s).2.2.filter is_drain else [])
      ∧ (main_load b cfg env s).2.1.ret
        = (if env.load_ok && env.instantiate_ok
              && !(b.enable_debug_interp && cfg.ip_addr.isSome && !env.debug_instance_ok)
            then (main_run b cfg env s).2.1.ret else s.ret) := by
  simp only [main_load]
  cases hl : env.load_ok <;> cases hi : env.instantiate_ok <;>
    cases hd : (b.enable_debug_interp && cfg.ip_addr.isSome) <;>
    cases hk : env.debug_instance_ok <;> cases hm : b.enable_multi_module <;>
    cases hw : b.enable_libc_wasi <;>
    simp [guest_calls_append, guest_calls_cons, guest_calls_nil, is_guest_call, is_drain, hd]

/-- The status set by the run stage does not depend on the locals it is
entered with, nor do its calls. -/
theorem main_run_locals (b : Build) (cfg : Config) (env : Env) (s s2 : Locals) :
    (main_run b cfg env s).2.2 = (main_run b cfg env s2).2.2
      ∧ (main_run b cfg env s).2.1.ret = (main_run b cfg env s2).2.1.ret := by
  simp only [main_run]
  split_ifs <;> simp

/-- The guest calls, drain and status of the read stage. -/
theorem main_read_guest (b : Build) (cfg : Config) (env : Env) (s : Locals) :
    guest_calls (main_read b cfg env s).2.2
        = (if env.read_file_ok && !(b.enable_aot && env.is_xip && !env.mmap_ok)
            then guest_calls (main_load b cfg env s).2.2 else [])
      ∧ (main_read b cfg env s).2.2.filter is_drain
        = (if env.read_file_ok && !(b.enable_aot && env.is_xip && !env.mmap_ok)
            then (main_load b cfg env s).2.2.filter is_drain else [])
      ∧ (main_read b cfg env s).2.1.ret
        = (if env.read_file_ok && !(b.enable_aot && env.is_xip && !env.mmap_ok)
            then (main_load b cfg env s).2.1.ret else s.ret) := by
  have h1 := fun s => (main_load_guest b cfg env s).1
  have h2 := fun s => (main_load_guest b cfg env s).2.1
  have h3 := fun s => (main_load_guest b cfg env s).2.2
  have r1 := fun s2 => (main_run_locals b cfg env s2 s).1
  have r2 := fun s2 => (main_run_locals b cfg env s2 s).2
  simp only [main_read]
  cases hr : env.read_file_ok <;> cases ha : b.enable_aot <;> cases hx : env.is_xip <;>
    cases hm : env.mmap_ok <;>
    simp [guest_calls_append, guest_calls_cons, guest_calls_nil, is_guest_call, is_drain,
      h1, h2, h3, r1, r2]

/-- The code after the labels calls no guest code and no drain. -/
theorem cleanup_guest (b : Build) (env : Env) (s : Locals) (l : Label) :
    guest_calls (cleanup b env s l) = [] ∧ (cleanup b env s l).filter is_drain = [] := by
  cases l <;> cases hd : b.has_dlfcn <;> cases hx : s.is_xip_file <;>
    cases ha : b.enable_aot <;>
    simp [cleanup, at_fail1, at_fail2, at_fail3, at_fail4, guest_calls_append, guest_calls_cons,
      guest_calls_nil, is_guest_call, is_drain, hd, hx, ha]

/-- The guest calls, the drain and the status of `main`: those of the run stage
when the stages before the `_entry` lookup all succeed; otherwise none, and
the status -1. -/
theorem main_guest (b : Build) (cfg : Config) (env : Env) (s : Locals) :
    guest_calls (main b cfg env).2
        = (if reaches_entry b cfg env then guest_calls (main_run b cfg env s).2.2 else [])
      ∧ (main b cfg env).2.filter is_drain
        = (if reaches_entry b cfg env then (main_run b cfg env s).2.2.filter is_drain else [])
      ∧ (main b cfg env).1
        = (if reaches_entry b cfg env then (main_run b cfg env s).2.1.ret else -1) := by
  have h1 := fun s => (main_read_guest b cfg env s).1
  have h2 := fun s => (main_read_guest b cfg env s).2.1
  have h3 := fun s => (main_read_guest b cfg env s).2.2
  have l1 := fun s => (main_load_guest b cfg env s).1
  have l2 := fun s => (main_load_guest b cfg env s).2.1
  have l3 := fun s => (main_load_guest b cfg env s).2.2
  have r1 := fun s2 => (main_run_locals b cfg env s2 s).1
  have r2 := fun s2 => (main_run_locals b cfg env s2 s).2
  have g1 := (register_builtins_guest env builtins).1
  have g2 := (register_builtins_guest env builtins).2
  have c1 := fun s l => (cleanup_guest b env s l).1
  have c2 := fun s l => (cleanup_guest b env s l).2
  simp only [guest_calls] at g1 c1 h1 l1
  simp only [main, main_body, reaches_entry, guest_calls]
  rcases Bool.eq_false_or_eq_true env.full_init_ok with hf | hf <;>
    rcases Bool.eq_false_or_eq_true (register_builtins env builtins).2 with hg | hg <;>
    rcases Bool.eq_false_or_eq_true b.has_dlfcn with hd | hd <;>
    simp [hf, hg, hd, is_guest_call, is_drain, h1, h2, h3, l1, l2, l3, r1, r2, g1, g2, c1, c2] <;>
    split_ifs <;> simp_all

/-- Claim C9: when every stage before the `_entry` lookup succeeds, the module
exposes `_entry`, the `_entry` call returns normally, and the configuration
names a function `F` without `--repl`, the guest calls of `main` are the
`_entry` call, with no arguments, and then one call of `F` with the arguments
that follow the module file name; the status is 1 when an exception is set
after the call of `F`, and otherwise 0, or the guest exit code in a build with
WASI. -/
theorem named_function_mode (b : Build) (cfg : Config) (env : Env) (F : String)
    (hreach : reaches_entry b cfg env = true) (hlookup : env.lookup_entry_ok = true)
    (hcall : env.call_entry_ok = true) (hfunc : cfg.func_name = some F)
    (hrepl : cfg.is_repl_mode = false) :
    guest_calls (main b cfg env).2
        = [Event.wasm_runtime_call_wasm env.exec_env_ok "_entry" 0 true,
            Event.wasm_application_execute_func F ((cfg.app_argv.length : Int) - 1)
              (cfg.app_argv.drop 1)]
      ∧ (main b cfg env).1
        = (if env.exception.isSome then 1
            else if b.enable_libc_wasi then env.wasi_exit_code else 0) := by
  have s0 : Locals := ⟨0, false, none, []⟩
  obtain ⟨h1, -, h3⟩ := main_guest b cfg env s0
  obtain ⟨r1, -, r3⟩ := main_run_guest b cfg env s0
  rw [h1, h3, r1, r3]
  simp [hreach, hlookup, hcall, hfunc, hrepl, selected_run_mode]

/-- A run of `named_function_mode`: the command line `iwasm -f F a.wasm x y` on
a module for which every call succeeds. -/
theorem named_function_mode_witness :
    guest_calls (main full_build demo_config good_env).2
        = [Event.wasm_runtime_call_wasm true "_entry" 0 true,
            Event.wasm_application_execute_func "F" 2 ["x", "y"]]
      ∧ (main full_build demo_config good_env).1 = 0 :=
  named_function_mode full_build demo_config good_env "F" (by decide) rfl rfl rfl rfl

/-- Claim C10, the defect: on a module that loads and instantiates but exports
no `_entry`, and on one whose `_entry` call traps, `main` runs no mode and no
drain and tears down instance, module, image, native libraries, context and
engine, but returns the status 0. -/
theorem main_entry_failure_status :
    main full_build demo_config no_entry_env
        = (0,
          [Event.wasm_runtime_full_init true, Event.dyntype_context_init,
            Event.dyntype_set_callback_dispatcher,
            Event.load_and_register_native_libs [] [] [],
            Event.wasm_runtime_register_natives Builtin.libdyntype true,
            Event.wasm_runtime_register_natives Builtin.lib_console true,
            Event.wasm_runtime_register_natives Builtin.lib_array true,
            Event.wasm_runtime_register_natives Builtin.lib_timer true,
            Event.wasm_runtime_register_natives Builtin.struct_indirect true,
            Event.bh_read_file_to_buffer (some "a.wasm") true,
            Event.wasm_runtime_is_xip_file (some Buf.file) false,
            Event.wasm_runtime_set_module_reader,
            Event.wasm_runtime_load (some Buf.file) true,
            Event.wasm_runtime_set_wasi_args,
            Event.wasm_runtime_instantiate true,
            Event.wasm_runtime_get_exec_env_singleton true,
            Event.wasm_runtime_lookup_function "_entry" false,
            Event.wasm_runtime_deinstantiate,
            Event.wasm_runtime_unload,
            Event.wasm_runtime_free (some Buf.file),
            Event.unregister_and_unload_native_libs [] [],
            Event.dyntype_context_destroy,
            Event.wasm_runtime_destroy])
      ∧ (main full_build demo_config trap_env).1 = 0
      ∧ guest_calls (main full_build demo_config trap_env).2
          = [Event.wasm_runtime_call_wasm true "_entry" 0 false]
      ∧ (main full_build demo_config trap_env).2.filter is_drain = [] := by
  decide

/-! ## The missing execution context -/

/-- Claim C11, the defect: when no execution context is obtained, `main` only
prints the exception and goes on: it calls `_entry`, the run mode and the
microtask drain with the missing context; the instance is deinstantiated once
at teardown. -/
theorem main_missing_exec_env :
    main full_build demo_config no_exec_env
      = (0,
          [Event.wasm_runtime_full_init true, Event.dyntype_context_init,
            Event.dyntype_set_callback_dispatcher,
            Event.load_and_register_native_libs [] [] [],
            Event.wasm_runtime_register_natives Builtin.libdyntype true,
            Event.wasm_runtime_register_natives Builtin.lib_console true,
            Event.wasm_runtime_register_natives Builtin.lib_array true,
            Event.wasm_runtime_register_natives Builtin.lib_timer true,
            Event.wasm_runtime_register_natives Builtin.struct_indirect true,
            Event.bh_read_file_to_buffer (some "a.wasm") true,
            Event.wasm_runtime_is_xip_file (some Buf.file) false,
            Event.wasm_runtime_set_module_reader,
            Event.wasm_runtime_load (some Buf.file) true,
            Event.wasm_runtime_set_wasi_args,
            Event.wasm_runtime_instantiate true,
            Event.wasm_runtime_get_exec_env_singleton false,
            Event.wasm_runtime_lookup_function "_entry" true,
            Event.wasm_runtime_call_wasm false "_entry" 0 true,
            Event.wasm_application_execute_func "F" 2 ["x", "y"],
            Event.wasm_runtime_get_wasi_exit_code 0,
            Event.execute_micro_tasks false
              [TaskEvent.execute_pending_jobs none 0, TaskEvent.events_poll (-1)],
            Event.wasm_runtime_deinstantiate,
            Event.wasm_runtime_unload,
            Event.wasm_runtime_free (some Buf.file),
            Event.unregister_and_unload_native_libs [] [],
            Event.dyntype_context_destroy,
            Event.wasm_runtime_destroy]) := by
  have h : (execute_micro_tasks ([] : List Job)).1
      = [TaskEvent.execute_pending_jobs none 0, TaskEvent.events_poll (-1)] := by
    simp [execute_micro_tasks_eq, pending_jobs_loop_nil]
  rw [← h]
  rfl

/-! ## The run modes -/

/-- The run modes of a trace are found among its guest calls. -/
theorem run_modes_of_guest_calls (t : List Event) :
    t.filter is_run_mode = (guest_calls t).filter is_run_mode := by
  induction t with
  | nil => rfl
  | cons e t ih =>
    cases e <;> simp [guest_calls, List.filter_cons, is_run_mode, is_guest_call] <;>
      simpa [guest_calls] using ih

/-- Claim C12: for every build, configuration and behaviour of the
collaborators, the run modes `main` executes are the single mode the
configuration selects (REPL if `--repl` was given, otherwise the named function
if `-f` was given, otherwise the main entry) when the `_entry` call was reached
and succeeded, and none otherwise; that mode comes right after the one `_entry`
call among the guest calls. -/
theorem one_run_mode_after_entry (b : Build) (cfg : Config) (env : Env) :
    (main b cfg env).2.filter is_run_mode
        = (if reaches_entry b cfg env && env.lookup_entry_ok && env.call_entry_ok
            then [selected_run_mode cfg env] else [])
      ∧ guest_calls (main b cfg env).2
        = (if reaches_entry b cfg env && env.lookup_entry_ok then
            Event.wasm_runtime_call_wasm env.exec_env_ok "_entry" 0 env.call_entry_ok ::
              (if env.call_entry_ok then [selected_run_mode cfg env] else [])
           else [])
      ∧ is_run_mode (selected_run_mode cfg env) = true
      ∧ selected_run_mode cfg env
        = (if cfg.is_repl_mode then
            Event.app_instance_repl (app_instance_repl env.realloc_ok env.repl_lines)
           else if cfg.func_name.isSome then
            Event.wasm_application_execute_func (cfg.func_name.getD "")
              ((cfg.app_argv.length : Int) - 1) (cfg.app_argv.drop 1)
           else Event.wasm_application_execute_main (cfg.app_argv.length : Int) cfg.app_argv) := by
  have hmode : is_run_mode (selected_run_mode cfg env) = true := by
    simp only [selected_run_mode]
    split_ifs
    · rfl
    · split <;> rfl
  have hg : guest_calls (main b cfg env).2
      = (if reaches_entry b cfg env && env.lookup_entry_ok then
          Event.wasm_runtime_call_wasm env.exec_env_ok "_entry" 0 env.call_entry_ok ::
            (if env.call_entry_ok then [selected_run_mode cfg env] else [])
         else []) := by
    rw [(main_guest b cfg env ⟨0, false, none, []⟩).1, (main_run_guest b cfg env _).1]
    cases reaches_entry b cfg env <;> cases env.lookup_entry_ok <;> cases env.call_entry_ok <;>
      simp
  refine ⟨?_, hg, hmode, ?_⟩
  · have hcall : ∀ x y z w, is_run_mode (Event.wasm_runtime_call_wasm x y z w) = false :=
      fun _ _ _ _ => rfl
    rw [run_modes_of_guest_calls, hg]
    cases reaches_entry b cfg env <;> cases env.lookup_entry_ok <;> cases env.call_entry_ok <;>
      simp [List.filter_cons, hcall, hmode]
  · simp only [selected_run_mode]
    cases cfg.is_repl_mode <;> cases cfg.func_name <;> simp

/-! ## A missing module file -/

/-- When the registry accepts every table, each table is registered in
turn. -/
theorem register_builtins_all (env : Env) (hreg : ∀ t, env.register_ok t = true)
    (l : List Builtin) :
    register_builtins env l
      = (l.map (fun t => Event.wasm_runtime_register_natives t true), true) := by
  induction l with
  | nil => rfl
  | cons a l ih => simp [register_builtins, hreg, ih]

/-- Claim C13, as amended: a module file that is absent or unreadable is
detected only by `bh_read_file_to_buffer`, after the engine is initialised, the
dynamic-value context created, the native libraries loaded and the five
built-in tables registered. `main` then goes to `fail1`: it unloads the
native libraries, destroys the context and the engine and returns -1; no
image, module or instance is created and no guest code runs. -/
theorem missing_file_detected_after_bootstrap (b : Build) (cfg : Config) (env : Env)
    (hinit : env.full_init_ok = true) (hreg : ∀ t, env.register_ok t = true)
    (hread : env.read_file_ok = false) :
    main b cfg env
      = (-1,
          [Event.wasm_runtime_full_init true, Event.dyntype_context_init,
            Event.dyntype_set_callback_dispatcher] ++
          (if b.has_dlfcn then
            [Event.load_and_register_native_libs cfg.native_lib_list
              (load_and_register_native_libs env.dl_load cfg.native_lib_list).trace
              (load_and_register_native_libs env.dl_load cfg.native_lib_list).native_handle_list]
           else []) ++
          [Event.wasm_runtime_register_natives Builtin.libdyntype true,
            Event.wasm_runtime_register_natives Builtin.lib_console true,
            Event.wasm_runtime_register_natives Builtin.lib_array true,
            Event.wasm_runtime_register_natives Builtin.lib_timer true,
            Event.wasm_runtime_register_natives Builtin.struct_indirect true,
            Event.bh_read_file_to_buffer cfg.app_argv.head? false] ++
          (if b.has_dlfcn then
            [Event.unregister_and_unload_native_libs
              (load_and_register_native_libs env.dl_load cfg.native_lib_list).native_handle_list
              (unregister_and_unload_native_libs env.dl_unload
                (load_and_register_native_libs env.dl_load cfg.native_lib_list).native_handle_list)]
           else []) ++
          [Event.dyntype_context_destroy, Event.wasm_runtime_destroy]) := by
  have hg := register_builtins_all env hreg builtins
  simp only [main, main_body, main_read, hinit, hread, hg]
  cases hd : b.has_dlfcn <;> simp [cleanup, at_fail1, builtins, hd]

/-- A run of `missing_file_detected_after_bootstrap`: the command line
`iwasm -f F a.wasm x y` with `a.wasm` missing. -/
theorem missing_file_detected_after_bootstrap_witness :
    missing_file_env.full_init_ok = true ∧ (∀ t, missing_file_env.register_ok t = true)
      ∧ missing_file_env.read_file_ok = false
      ∧ (main full_build demo_config missing_file_env).1 = -1
      ∧ (main full_build demo_config missing_file_env).2.getLast?
          = some Event.wasm_runtime_destroy :=
  have h := missing_file_detected_after_bootstrap full_build demo_config missing_file_env rfl
    (fun _ => rfl) rfl
  ⟨rfl, fun _ => rfl, rfl, by rw [h], by rw [h]; rfl⟩

/-- Claim C13 fails as stated: with the module file missing, the engine is
initialised, the context created, the native libraries loaded and five symbol
tables registered before `bh_read_file_to_buffer` detects the failure. -/
theorem missing_file_touches_runtime :
    (main full_build demo_config missing_file_env).2.take 10
      = [Event.wasm_runtime_full_init true, Event.dyntype_context_init,
          Event.dyntype_set_callback_dispatcher,
          Event.load_and_register_native_libs [] [] [],
          Event.wasm_runtime_register_natives Builtin.libdyntype true,
          Event.wasm_runtime_register_natives Builtin.lib_console true,
          Event.wasm_runtime_register_natives Builtin.lib_array true,
          Event.wasm_runtime_register_natives Builtin.lib_timer true,
          Event.wasm_runtime_register_natives Builtin.struct_indirect true,
          Event.bh_read_file_to_buffer (some "a.wasm") false] := by
  decide

/-! ## Tokens as maximal runs -/

/-- Every token is non-empty and holds no space. -/
theorem tokens_spec (s : List Char) : ∀ t ∈ tokens s, t ≠ [] ∧ ' ' ∉ t := by
  obtain ⟨n, hn⟩ : ∃ n, s.length = n := ⟨_, rfl⟩
  induction n using Nat.strong_induction_on generalizing s with
  | _ n ih =>
    match s, hn with
    | [], _ => simp [tokens_nil]
    | c :: cs, hn =>
      by_cases hc : c = ' '
      · subst hc
        rw [tokens_cons_space]
        exact ih cs.length (by rw [← hn]; simp) cs rfl
      · rw [tokens_word c cs hc]
        intro t ht
        rcases List.mem_cons.mp ht with rfl | ht
        · refine ⟨by simp [List.takeWhile_cons, hc], ?_⟩
          intro hmem
          have hp := List.mem_takeWhile_imp (p := fun c => c != ' ') hmem
          simp at hp
        · have hlt : (((c :: cs).dropWhile (fun c => c != ' ')).drop 1).length < n := by
            have h3 : (List.dropWhile (fun c => c != ' ') (c :: cs)).length
                ≤ (c :: cs).length := (List.dropWhile_sublist _).length_le
            rw [← hn, List.length_drop]
            simp only [List.length_cons] at h3 ⊢
            omega
          exact ih _ hlt _ rfl t ht

/-- A text with a character other than the space has a token. -/
theorem tokens_ne_nil (s : List Char) (h : ∃ c ∈ s, c ≠ ' ') : tokens s ≠ [] := by
  induction s with
  | nil =>
    obtain ⟨c, hc, -⟩ := h
    simp at hc
  | cons d ds ih =>
    by_cases hd : d = ' '
    · subst hd
      rw [tokens_cons_space]
      apply ih
      obtain ⟨c, hc, hne⟩ := h
      rcases List.mem_cons.mp hc with rfl | hc
      · exact absurd rfl hne
      · exact ⟨c, hc, hne⟩
    · rw [tokens_word d ds hd]
      simp

/-- The tokens, put end to end, are the text without its spaces. -/
theorem tokens_flatten (s : List Char) :
    (tokens s).flatten = s.filter (fun c => c != ' ') := by
  obtain ⟨n, hn⟩ : ∃ n, s.length = n := ⟨_, rfl⟩
  induction n using Nat.strong_induction_on generalizing s with
  | _ n ih =>
    match s, hn with
    | [], _ => simp [tokens_nil]
    | c :: cs, hn =>
      by_cases hc : c = ' '
      · subst hc
        rw [tokens_cons_space, ih cs.length (by rw [← hn]; simp) cs rfl]
        simp [List.filter_cons]
      · have hlt : (((c :: cs).dropWhile (fun c => c != ' ')).drop 1).length < n := by
          have h3 : (List.dropWhile (fun c => c != ' ') (c :: cs)).length
              ≤ (c :: cs).length := (List.dropWhile_sublist _).length_le
          rw [← hn, List.length_drop]
          simp only [List.length_cons] at h3 ⊢
          omega
        rw [tokens_word c cs hc, List.flatten_cons, ih _ hlt _ rfl]
        conv_rhs => rw [← List.takeWhile_append_dropWhile (fun c => c != ' ') (c :: cs)]
        rw [List.filter_append]
        congr 1
        · symm
          rw [List.filter_eq_self]
          intro a ha
          have hp := List.mem_takeWhile_imp (p := fun c => c != ' ') ha
          simpa using hp
        · rcases hd : (c :: cs).dropWhile (fun c => c != ' ') with _ | ⟨d, r⟩
          · simp
          · have hhead := List.head_dropWhile_not (fun c => c != ' ') (c :: cs)
              (by simp [hd])
            simp only [hd, List.head_cons] at hhead
            simp [List.filter_cons, hhead]

/-- The backslash replacement, character by character. -/
theorem unescape_eq_map (w : List Char) :
    unescape w = w.map (fun c => if c = '\\' then ' ' else c) := by
  induction w with
  | nil => rfl
  | cons c cs ih => simp [unescape, ih]

/-- Splitting at spaces works piecewise across a space. -/
theorem splitOnP_append_space (a b : List Char) :
    (a ++ ' ' :: b).splitOnP (fun c => c == ' ')
      = a.splitOnP (fun c => c == ' ') ++ b.splitOnP (fun c => c == ' ') := by
  induction a with
  | nil => simp [List.splitOnP_cons, List.splitOnP_nil]
  | cons c cs ih =>
    rw [List.cons_append, List.splitOnP_cons, List.splitOnP_cons, ih]
    by_cases hc : c = ' '
    · simp [hc]
    · have hb : (c == ' ') = false := by simpa using hc
      simp only [hb, Bool.false_eq_true, if_false]
      rcases hs : cs.splitOnP (fun c => c == ' ') with _ | ⟨p, ps⟩
      · exact absurd hs (List.splitOnP_ne_nil _ _)
      · simp [List.modifyHead]

/-- The tokens of two texts joined by a space are the tokens of the first
followed by those of the second. -/
theorem tokens_append_space (a b : List Char) :
    tokens (a ++ ' ' :: b) = tokens a ++ tokens b := by
  simp [tokens, splitOnP_append_space, List.filter_append]

/-- A non-empty text without a space is its own single token. -/
theorem tokens_single (w : List Char) (hne : w ≠ []) (hw : ' ' ∉ w) : tokens w = [w] := by
  have h : w.splitOnP (fun c => c == ' ') = [w] := by
    apply List.splitOnP_eq_single
    intro x hx hp
    have : x = ' ' := by simpa using hp
    exact hw (this ▸ hx)
  rw [tokens, h]
  cases w with
  | nil => exact absurd rfl hne
  | cons c cs => simp

/-- Claim C15: when every `realloc` succeeds, `split_string` on a text with at
least one character other than the space returns the tokens of the text, from
left to right, the first with every backslash replaced by a space and the
others unchanged, followed by the NULL end marker, and sets `count` to the
number of tokens. The tokens are the maximal runs of characters other than the
space: none is empty or holds a space, put end to end they are the text
without its spaces, a space separates the tokens before it from those after
it (so leading, trailing and repeated spaces give no token), and a text
without a space is one token. -/
theorem split_string_runs (realloc_ok : Nat → Bool) (str : List Char)
    (hok : ∀ n, realloc_ok n = true) (hne : ∃ c ∈ str, c ≠ ' ') :
    (∃ w ws, tokens str = w :: ws
        ∧ split_string realloc_ok str
          = SplitResult.ok (some (unescape w) :: (ws.map some ++ [none]))
              ((ws.length : Int) + 1)
        ∧ unescape w = w.map (fun c => if c = '\\' then ' ' else c))
      ∧ (∀ t ∈ tokens str, t ≠ [] ∧ ' ' ∉ t)
      ∧ (tokens str).flatten = str.filter (fun c => c != ' ')
      ∧ (∀ a b, tokens (a ++ ' ' :: b) = tokens a ++ tokens b)
      ∧ (∀ w, w ≠ [] → ' ' ∉ w → tokens w = [w])
      ∧ tokens [] = [] := by
  refine ⟨?_, tokens_spec str, tokens_flatten str, tokens_append_space, tokens_single,
    tokens_nil⟩
  have h := split_string_tokens realloc_ok hok str
  rcases hw : tokens str with _ | ⟨w, ws⟩
  · exact absurd hw (tokens_ne_nil str hne)
  · rw [hw] at h
    exact ⟨w, ws, rfl, h, unescape_eq_map w⟩

/-- A run of `split_string_runs` on the text `  func\name  12 x `, with
leading, repeated and trailing spaces. -/
theorem split_string_runs_witness :
    (∃ c ∈ "  func\\name  12 x ".toList, c ≠ ' ')
      ∧ split_string (fun _ => true) "  func\\name  12 x ".toList
        = SplitResult.ok [some "func name".toList, some "12".toList, some "x".toList, none] 3 := by
  refine ⟨by decide, ?_⟩
  obtain ⟨w, ws, hw, hs, -⟩ :=
    (split_string_runs (fun _ => true) "  func\\name  12 x ".toList (fun _ => rfl)
      (by decide)).1
  have ht : tokens "  func\\name  12 x ".toList
      = ["func\\name".toList, "12".toList, "x".toList] := by decide
  rw [ht] at hw
  cases hw
  exact hs

/-! ## The option `--gc-heap-size=` and lines of spaces -/

/-- Claim C14, the defect: the emptiness check of `--gc-heap-size=` reads the
byte at index 21 instead of 15. A value of six characters is rejected with the
help text although it is not empty; for an empty value, and for any value of
fewer than six characters, the byte read lies beyond the terminating NUL of
the argument; a value of seven characters is accepted. -/
theorem gc_heap_size_check_index :
    gc_heap_size_option "--gc-heap-size=123456".toList = OptionOutcome.print_help
      ∧ gc_heap_size_option "--gc-heap-size=".toList = OptionOutcome.out_of_bounds
      ∧ gc_heap_size_option "--gc-heap-size=1024".toList = OptionOutcome.out_of_bounds
      ∧ gc_heap_size_option "--gc-heap-size=1234567".toList
          = OptionOutcome.gc_heap_size 1234567
      ∧ c_char_at "--gc-heap-size=".toList 15 = some (Char.ofNat 0)
      ∧ c_char_at "--gc-heap-size=".toList 21 = none := by
  decide

/-- Claim C16, the defect: on a line made only of spaces `split_string` finds no
token, its array holds only the NULL end marker, and the backslash replacement
reads through that NULL pointer; in the REPL such a line never reaches the
`app_argc != 0` guard, and the line after it is not read. -/
theorem split_string_spaces_only :
    tokens "   ".toList = []
      ∧ split_string (fun _ => true) "   ".toList = SplitResult.null_deref
      ∧ app_instance_repl (fun _ => true) ["   \n".toList, "f 1\n".toList]
          = [ReplEvent.getline (some "   \n".toList), ReplEvent.null_deref]
      ∧ app_instance_repl (fun _ => true) [" ".toList]
          = [ReplEvent.getline (some " ".toList), ReplEvent.null_deref] := by
  have ht : tokens "   ".toList = [] := by decide
  have ht1 : tokens " ".toList = [] := by decide
  have h3 := split_string_tokens (fun _ => true) (fun _ => rfl) "   ".toList
  have h1 := split_string_tokens (fun _ => true) (fun _ => rfl) " ".toList
  rw [ht] at h3
  rw [ht1] at h1
  have c3 : cstr "   ".toList = "   ".toList := by decide
  have c1 : cstr " ".toList = " ".toList := by decide
  have s3 : strip_newline "   \n".toList = "   ".toList := by decide
  have s1 : strip_newline " ".toList = " ".toList := by decide
  have e3 : ¬ ("   ".toList = "__exit__".toList) := by decide
  have e1 : ¬ (" ".toList = "__exit__".toList) := by decide
  have n3 : ¬ ("   \n".toList = ['\n']) := by decide
  have n1 : ¬ (" ".toList = ['\n']) := by decide
  have l3 : ¬ ("   \n".toList.length = 0) := by decide
  have l1 : ¬ (" ".toList.length = 0) := by decide
  refine ⟨ht, h3, ?_, ?_⟩
  · rw [app_instance_repl]
    simp only [l3, n3, if_false, s3, repl_command, c3, if_neg e3, h3]
  · rw [app_instance_repl]
    simp only [l1, n1, if_false, s1, repl_command, c1, if_neg e1, h1]

end Iwasm
